import Mathlib

/-!
# SURFE vector-field method: embedding of `surfe_lib/vector_field.cpp`

Shallow embedding of the member functions of `Vector_Field`
(`get_method_parameters`, `get_equality_values`, `get_interpolation_matrix`,
`setup_system_solver`, `eval_scalar_interpolant_at_point`,
`eval_vector_interpolant_at_point`) and of the data they touch.

Conventions of the embedding.

* The scalar type `α` stands for the C++ `double`.  The definitions only use
  `0`, `+` and `*` of `α`, in the order the source applies them; theorems that
  speak about sums as unordered sums assume exact arithmetic
  (`AddCommMonoid`, `CommSemiring`).
* The C++ `int` counters hold container sizes and loop bounds; they are
  modelled as natural numbers.
* A member function is a function from the state of the object (and its
  reference arguments) to the new state.  `Option` is used for runs of
  straight-line code: `none` is a fault, that is an index outside a vector,
  a matrix or a `std::vector`, or a call through a null pointer.
* Cells of a freshly allocated Eigen vector or matrix hold no value: a cell
  is `none` until it is assigned.
-/

namespace Surfe

/-! ## Data model -/

/-- Spatial axes; the row and column offsets 0, 1, 2 of a planar block. -/
inductive Axis where
  | x
  | y
  | z
  deriving DecidableEq

/-- The axis of a row or column offset: 0 is x, 1 is y, anything else z. -/
def Axis.ofOffset : Nat → Axis
  | 0 => Axis.x
  | 1 => Axis.y
  | _ => Axis.z

/-- The enumerators `Parameter_Types::DXDX` ... `Parameter_Types::DZDZ`. -/
inductive Parameter_Types.SecondDerivatives where
  | DXDX
  | DXDY
  | DXDZ
  | DYDX
  | DYDY
  | DYDZ
  | DZDX
  | DZDY
  | DZDZ
  deriving DecidableEq

/-- The enumerator `Parameter_Types::Linear` and its alternative. -/
inductive Parameter_Types.ProblemType where
  | Linear
  | Quadratic
  deriving DecidableEq

open Parameter_Types

/-- The enumerator named after an ordered pair of axes: first axis, second axis. -/
def Parameter_Types.SecondDerivatives.ofAxes : Axis → Axis → SecondDerivatives
  | Axis.x, Axis.x => SecondDerivatives.DXDX
  | Axis.x, Axis.y => SecondDerivatives.DXDY
  | Axis.x, Axis.z => SecondDerivatives.DXDZ
  | Axis.y, Axis.x => SecondDerivatives.DYDX
  | Axis.y, Axis.y => SecondDerivatives.DYDY
  | Axis.y, Axis.z => SecondDerivatives.DYDZ
  | Axis.z, Axis.x => SecondDerivatives.DZDX
  | Axis.z, Axis.y => SecondDerivatives.DZDY
  | Axis.z, Axis.z => SecondDerivatives.DZDZ

/-- The exceptions thrown by `setup_system_solver`. -/
inductive GRBF_Exceptions where
  | error_computing_interpolation_matrix
  | linear_solver_failure
  deriving DecidableEq

/-- Modelled from the spec: class `Point` is declared outside `src/`.  A position
(three coordinates) with an optional scalar-field result and an optional
vector-field result. -/
structure Point (α : Type) where
  x : α
  y : α
  z : α
  scalar_field : Option α
  vector_field : Option (α × α × α)
  deriving DecidableEq

/-- The method `Point::set_scalar_field`. -/
def Point.set_scalar_field {α : Type} (p : Point α) (v : α) : Point α :=
  { p with scalar_field := some v }

/-- The method `Point::set_vector_field`. -/
def Point.set_vector_field {α : Type} (p : Point α) (vx vy vz : α) : Point α :=
  { p with vector_field := some (vx, vy, vz) }

/-- Two points have the same position. -/
def Point.samePosition {α : Type} (p q : Point α) : Prop :=
  p.x = q.x ∧ p.y = q.y ∧ p.z = q.z

/-- Modelled from the spec: class `Planar` is declared outside `src/`.  A point
with a normal vector `(nx, ny, nz)`. -/
structure Planar (α : Type) extends Point α where
  nx : α
  ny : α
  nz : α
  deriving DecidableEq

/-- Modelled from the spec: an interface constraint, a position and a target value. -/
structure Interface (α : Type) extends Point α where
  level : α

/-- Modelled from the spec: a tangent constraint, a position and a direction. -/
structure Tangent (α : Type) extends Point α where
  tx : α
  ty : α
  tz : α

/-- Modelled from the spec: an inequality constraint, a position, a bound and the
side of the bound. -/
structure Inequality (α : Type) extends Point α where
  bound : α
  greater : Bool

/-- Modelled from the spec: the constraint store `constraints`, four ordered
collections. -/
structure Constraints (α : Type) where
  interface : List (Interface α)
  planar : List (Planar α)
  tangent : List (Tangent α)
  inequality : List (Inequality α)

/-- The fields of `intern_params` written by `get_method_parameters`. -/
structure Internal_Parameters where
  n_interface : Nat
  n_inequality : Nat
  n_planar : Nat
  n_tangent : Nat
  n_constraints : Nat
  n_equality : Nat
  poly_term : Bool
  modified_basis : Bool
  problem_type : ProblemType
  n_poly_terms : Nat
  deriving DecidableEq

/-- Modelled from the spec: class `Kernel` (`basis.h`) is not under `src/`.
A kernel is its derivative functions of a pair of points together with the pair
it was last set to; `set_points` fixes the pair used by the queries that follow
and there is no other state. -/
structure Kernel (α : Type) where
  second_derivative : SecondDerivatives → Point α → Point α → α
  first_derivative : Axis → Point α → Point α → α
  p1 : Point α
  p2 : Point α

/-- The method `Kernel::set_points`. -/
def Kernel.set_points {α : Type} (k : Kernel α) (a b : Point α) : Kernel α :=
  { k with p1 := a, p2 := b }

/-- The method `Kernel::basis_planar_planar`: the second mixed derivative named by
the enumerator, on the current pair. -/
def Kernel.basis_planar_planar {α : Type} (k : Kernel α) (t : SecondDerivatives) : α :=
  k.second_derivative t k.p1 k.p2

/-- The method `Kernel::basis_pt_planar_x`. -/
def Kernel.basis_pt_planar_x {α : Type} (k : Kernel α) : α :=
  k.first_derivative Axis.x k.p1 k.p2

/-- The method `Kernel::basis_pt_planar_y`. -/
def Kernel.basis_pt_planar_y {α : Type} (k : Kernel α) : α :=
  k.first_derivative Axis.y k.p1 k.p2

/-- The method `Kernel::basis_pt_planar_z`. -/
def Kernel.basis_pt_planar_z {α : Type} (k : Kernel α) : α :=
  k.first_derivative Axis.z k.p1 k.p2

/-- The method `Kernel::clone`: an independent copy. -/
def Kernel.clone {α : Type} (k : Kernel α) : Kernel α := k

/-- The outputs of a kernel depend only on the positions of the two points they
are evaluated on. -/
def Kernel.dependsOnPositionsOnly {α : Type} (K : Kernel α) : Prop :=
  (∀ t (a a1 b b1 : Point α), a.samePosition a1 → b.samePosition b1 →
    K.second_derivative t a b = K.second_derivative t a1 b1) ∧
  (∀ d (a a1 b b1 : Point α), a.samePosition a1 → b.samePosition b1 →
    K.first_derivative d a b = K.first_derivative d a1 b1)

/-- An Eigen `VectorXd`: a size and the content of each cell (`none` while the
cell has not been assigned). -/
structure VectorXd (α : Type) where
  size : Nat
  coeff : Nat → Option α

/-- The constructor `VectorXd v(n)`: `n` cells, none assigned. -/
def VectorXd.alloc {α : Type} (n : Nat) : VectorXd α :=
  { size := n, coeff := fun _ => none }

/-- The assignment `v(i) = a`; a fault when `i` is outside the vector. -/
def VectorXd.set {α : Type} (v : VectorXd α) (i : Nat) (a : α) : Option (VectorXd α) :=
  if i < v.size then
    some { v with coeff := fun i' => if i' = i then some a else v.coeff i' }
  else none

/-- The cells of a vector in index order. -/
def VectorXd.toList {α : Type} (v : VectorXd α) : List (Option α) :=
  (List.range v.size).map v.coeff

/-- An Eigen `MatrixXd`: its dimensions and the content of each cell (`none`
while the cell has not been assigned). -/
structure MatrixXd (α : Type) where
  rows : Nat
  cols : Nat
  coeff : Nat → Nat → Option α

/-- The constructor `MatrixXd m(r, c)`: no cell assigned. -/
def MatrixXd.alloc {α : Type} (r c : Nat) : MatrixXd α :=
  { rows := r, cols := c, coeff := fun _ _ => none }

/-- The assignment `m(i, j) = a`; a fault when `(i, j)` is outside the matrix. -/
def MatrixXd.set {α : Type} (m : MatrixXd α) (i j : Nat) (a : α) : Option (MatrixXd α) :=
  if i < m.rows ∧ j < m.cols then
    some { m with coeff := fun i' j' => if i' = i ∧ j' = j then some a else m.coeff i' j' }
  else none

/-- Modelled from the spec: class `Linear_LU_decomposition` (`matrix_solver.h`) is
not under `src/`.  The solver object keeps the system it was constructed from
and the weight vector `weights` that `solve` fills. -/
structure Linear_LU_decomposition (α : Type) where
  interpolation_matrix : MatrixXd α
  equality_values : VectorXd α
  weights : List α

/-- The constructor `Linear_LU_decomposition(interpolation_matrix, equality_values)`. -/
def Linear_LU_decomposition.new {α : Type} (interpolation_matrix : MatrixXd α)
    (equality_values : VectorXd α) : Linear_LU_decomposition α :=
  { interpolation_matrix := interpolation_matrix, equality_values := equality_values,
    weights := [] }

/-- The state of a `Vector_Field` object: the members read or written by the
functions of `vector_field.cpp`.  A null `solver`, `kernel` or `rbf_kernel`
pointer is `none`. -/
structure Vector_Field (α : Type) where
  constraints : Constraints α
  intern_params : Internal_Parameters
  solver : Option (Linear_LU_decomposition α)
  kernel : Option (Kernel α)
  rbf_kernel : Option Unit
  iteration : Nat

/-- How a call that may throw ends: it returns, leaving the object in state `s`;
it throws `e`, leaving the object in state `s`; or it faults. -/
inductive Outcome (σ : Type) where
  | ok (s : σ)
  | thrown (e : GRBF_Exceptions) (s : σ)
  | fault

/-! ## Operations -/

/-- The loop `for (int j = 0; j < n; j++) body`: the body runs for
`j = 0, ..., n - 1` in this order; a fault in the body ends the run. -/
def forLoop {σ : Type} : Nat → (Nat → σ → Option σ) → σ → Option σ
  | 0, _, s => some s
  | n + 1, body, s => (forLoop n body s).bind (body n)

/-- The default constructor `Vector_Field::Vector_Field()`; the members it leaves
alone are arguments. -/
def Vector_Field.new {α : Type} (constraints : Constraints α)
    (intern_params : Internal_Parameters) : Vector_Field α :=
  { constraints := constraints, intern_params := intern_params,
    solver := none, kernel := none, rbf_kernel := none, iteration := 0 }

/-- The function `Vector_Field::get_method_parameters`. -/
def Vector_Field.get_method_parameters {α : Type} (m : Vector_Field α) : Vector_Field α :=
  let ip := m.intern_params
  let ip := { ip with n_interface := 0 }
  let ip := { ip with n_inequality := 0 }
  let ip := { ip with n_planar := m.constraints.planar.length }
  let ip := { ip with n_tangent := 0 }
  let ip := { ip with n_constraints :=
    ip.n_interface + ip.n_inequality + 3 * ip.n_planar + ip.n_tangent }
  let ip := { ip with n_equality := ip.n_interface + 3 * ip.n_planar + ip.n_tangent }
  let ip := { ip with poly_term := false }
  let ip := { ip with modified_basis := false }
  let ip := { ip with problem_type := ProblemType.Linear }
  let ip := { ip with n_poly_terms := 0 }
  { m with intern_params := ip }

/-- The body of the loop of `get_equality_values` for index `j`. -/
def Vector_Field.get_equality_values_body {α : Type} (m : Vector_Field α) (j : Nat)
    (equality_values : VectorXd α) : Option (VectorXd α) := do
  let c ← m.constraints.planar[j]?
  let equality_values ← equality_values.set (3 * j) c.nx
  let equality_values ← equality_values.set (3 * j + 1) c.ny
  equality_values.set (3 * j + 2) c.nz

/-- The function `Vector_Field::get_equality_values`: the returned flag, the
vector passed by reference and the object after the call. -/
def Vector_Field.get_equality_values {α : Type} (m : Vector_Field α)
    (equality_values : VectorXd α) : Option (Bool × VectorXd α × Vector_Field α) := do
  let equality_values ←
    forLoop m.constraints.planar.length m.get_equality_values_body equality_values
  pure (true, equality_values, m)

/-- The body of the inner loop of `get_interpolation_matrix` for the row block `j`
and the column block `k`.  The kernel reached through the member `kernel` is
set to the pair and queried nine times; the state is the object and the matrix
passed by reference. -/
def Vector_Field.get_interpolation_matrix_body {α : Type} (j k : Nat)
    (s : Vector_Field α × MatrixXd α) : Option (Vector_Field α × MatrixXd α) := do
  let m := s.1
  let interpolation_matrix := s.2
  let kernel ← m.kernel
  let pj ← m.constraints.planar[j]?
  let pk ← m.constraints.planar[k]?
  let kernel := kernel.set_points pj.toPoint pk.toPoint
  let interpolation_matrix ← interpolation_matrix.set (3 * j) (3 * k)
    (kernel.basis_planar_planar SecondDerivatives.DXDX)
  let interpolation_matrix ← interpolation_matrix.set (3 * j) (3 * k + 1)
    (kernel.basis_planar_planar SecondDerivatives.DXDY)
  let interpolation_matrix ← interpolation_matrix.set (3 * j) (3 * k + 2)
    (kernel.basis_planar_planar SecondDerivatives.DXDZ)
  let interpolation_matrix ← interpolation_matrix.set (3 * j + 1) (3 * k)
    (kernel.basis_planar_planar SecondDerivatives.DYDX)
  let interpolation_matrix ← interpolation_matrix.set (3 * j + 1) (3 * k + 1)
    (kernel.basis_planar_planar SecondDerivatives.DYDY)
  let interpolation_matrix ← interpolation_matrix.set (3 * j + 1) (3 * k + 2)
    (kernel.basis_planar_planar SecondDerivatives.DYDZ)
  let interpolation_matrix ← interpolation_matrix.set (3 * j + 2) (3 * k)
    (kernel.basis_planar_planar SecondDerivatives.DZDX)
  let interpolation_matrix ← interpolation_matrix.set (3 * j + 2) (3 * k + 1)
    (kernel.basis_planar_planar SecondDerivatives.DZDY)
  let interpolation_matrix ← interpolation_matrix.set (3 * j + 2) (3 * k + 2)
    (kernel.basis_planar_planar SecondDerivatives.DZDZ)
  pure ({ m with kernel := some kernel }, interpolation_matrix)

/-- The function `Vector_Field::get_interpolation_matrix`: the returned flag, the
matrix passed by reference and the object after the call. -/
def Vector_Field.get_interpolation_matrix {α : Type} (m : Vector_Field α)
    (interpolation_matrix : MatrixXd α) : Option (Bool × MatrixXd α × Vector_Field α) := do
  let n_p := m.intern_params.n_planar
  let s ← forLoop n_p
    (fun j s => forLoop n_p (fun k s => Vector_Field.get_interpolation_matrix_body j k s) s)
    (m, interpolation_matrix)
  pure (true, s.2, s.1)

/-- The function `Vector_Field::setup_system_solver`.  The method `solve` of
`Linear_LU_decomposition` is not under `src/` and is an argument: it returns the
flag of `llu->solve()` and the solver object after the call. -/
def Vector_Field.setup_system_solver {α : Type}
    (solve : Linear_LU_decomposition α → Bool × Linear_LU_decomposition α)
    (m : Vector_Field α) : Outcome (Vector_Field α) :=
  let n := m.intern_params.n_equality + m.intern_params.n_poly_terms
  match m.get_equality_values (VectorXd.alloc n) with
  | none => Outcome.fault
  | some (_, equality_values, m) =>
    match m.get_interpolation_matrix (MatrixXd.alloc n n) with
    | none => Outcome.fault
    | some (false, _, m) =>
      Outcome.thrown GRBF_Exceptions.error_computing_interpolation_matrix m
    | some (true, interpolation_matrix, m) =>
      let llu := Linear_LU_decomposition.new interpolation_matrix equality_values
      match solve llu with
      | (false, _) => Outcome.thrown GRBF_Exceptions.linear_solver_failure m
      | (true, llu) => Outcome.ok { m with solver := some llu }

/-- The body of the loop of `eval_scalar_interpolant_at_point` for the planar
constraint `k`; the state is the cloned kernel and `elemsum`. -/
def Vector_Field.eval_scalar_body {α : Type} [Add α] [Mul α] (m : Vector_Field α)
    (p : Point α) (k : Nat) (s : Kernel α × α) : Option (Kernel α × α) := do
  let kernel_j := s.1
  let elemsum := s.2
  let pk ← m.constraints.planar[k]?
  let kernel_j := kernel_j.set_points p pk.toPoint
  let solver ← m.solver
  let w ← solver.weights[3 * k]?
  let elemsum := elemsum + w * kernel_j.basis_pt_planar_x
  let w ← solver.weights[3 * k + 1]?
  let elemsum := elemsum + w * kernel_j.basis_pt_planar_y
  let w ← solver.weights[3 * k + 2]?
  let elemsum := elemsum + w * kernel_j.basis_pt_planar_z
  pure (kernel_j, elemsum)

/-- The function `Vector_Field::eval_scalar_interpolant_at_point`: the point
passed by reference and the object after the call. -/
def Vector_Field.eval_scalar_interpolant_at_point {α : Type} [Zero α] [Add α] [Mul α]
    (m : Vector_Field α) (p : Point α) : Option (Point α × Vector_Field α) := do
  let n_p := m.intern_params.n_planar
  let kernel ← m.kernel
  let kernel_j := kernel.clone
  let s ← forLoop n_p (m.eval_scalar_body p) (kernel_j, 0)
  pure (p.set_scalar_field s.2, m)

/-- The body of the loop of `eval_vector_interpolant_at_point` for the planar
constraint `k`; the state is the cloned kernel and `elemsum_x`, `elemsum_y`,
`elemsum_z`. -/
def Vector_Field.eval_vector_body {α : Type} [Add α] [Mul α] (m : Vector_Field α)
    (p : Point α) (k : Nat) (s : Kernel α × α × α × α) : Option (Kernel α × α × α × α) := do
  let kernel_j := s.1
  let elemsum_x := s.2.1
  let elemsum_y := s.2.2.1
  let elemsum_z := s.2.2.2
  let pk ← m.constraints.planar[k]?
  let kernel_j := kernel_j.set_points p pk.toPoint
  let solver ← m.solver
  let w ← solver.weights[3 * k]?
  let elemsum_x := elemsum_x + w * kernel_j.basis_planar_planar SecondDerivatives.DXDX
  let w ← solver.weights[3 * k + 1]?
  let elemsum_x := elemsum_x + w * kernel_j.basis_planar_planar SecondDerivatives.DXDY
  let w ← solver.weights[3 * k + 2]?
  let elemsum_x := elemsum_x + w * kernel_j.basis_planar_planar SecondDerivatives.DXDZ
  let w ← solver.weights[3 * k]?
  let elemsum_y := elemsum_y + w * kernel_j.basis_planar_planar SecondDerivatives.DYDX
  let w ← solver.weights[3 * k + 1]?
  let elemsum_y := elemsum_y + w * kernel_j.basis_planar_planar SecondDerivatives.DYDY
  let w ← solver.weights[3 * k + 2]?
  let elemsum_y := elemsum_y + w * kernel_j.basis_planar_planar SecondDerivatives.DYDZ
  let w ← solver.weights[3 * k]?
  let elemsum_z := elemsum_z + w * kernel_j.basis_planar_planar SecondDerivatives.DZDX
  let w ← solver.weights[3 * k + 1]?
  let elemsum_z := elemsum_z + w * kernel_j.basis_planar_planar SecondDerivatives.DZDY
  let w ← solver.weights[3 * k + 2]?
  let elemsum_z := elemsum_z + w * kernel_j.basis_planar_planar SecondDerivatives.DZDZ
  pure (kernel_j, elemsum_x, elemsum_y, elemsum_z)

/-- The function `Vector_Field::eval_vector_interpolant_at_point`: the point
passed by reference and the object after the call. -/
def Vector_Field.eval_vector_interpolant_at_point {α : Type} [Zero α] [Add α] [Mul α]
    (m : Vector_Field α) (p : Point α) : Option (Point α × Vector_Field α) := do
  let n_p := m.intern_params.n_planar
  let kernel ← m.kernel
  let kernel_j := kernel.clone
  let s ← forLoop n_p (m.eval_vector_body p) (kernel_j, 0, 0, 0)
  pure (p.set_vector_field s.2.1 s.2.2.1 s.2.2.2, m)

/-! ## Specification-side definitions -/

/-- The content the block structure prescribes for the cell `(r, c)`: the second
mixed derivative for the axes of the offsets `r % 3` (first) and `c % 3` (second),
on the planar constraints `r / 3` and `c / 3`; nothing when a constraint is missing. -/
def planar_planar_entry {α : Type} (K : Kernel α) (planar : List (Planar α)) (r c : Nat) :
    Option α :=
  match planar[r / 3]?, planar[c / 3]? with
  | some pr, some pc =>
    some (K.second_derivative
      (SecondDerivatives.ofAxes (Axis.ofOffset (r % 3)) (Axis.ofOffset (c % 3)))
      pr.toPoint pc.toPoint)
  | _, _ => none

/-- Row `r` of the product of the matrix `A` and the vector `w`: the sum over the
columns `c` of `A(r, c) * w[c]`, accumulated in column order; nothing when a cell
of the row is not assigned or `w` is too short. -/
def MatrixXd.mulVec_row {α : Type} [Zero α] [Add α] [Mul α] (A : MatrixXd α) (w : List α)
    (r : Nat) : Option α :=
  forLoop A.cols (fun c acc => do
    let a ← A.coeff r c
    let x ← w[c]?
    pure (acc + a * x)) 0

/-- The vector `w` solves the system: `A * w = b` exactly, row by row, with `b` as long
as `A` has rows, `w` as long as `A` has columns and every cell involved assigned. -/
def MatrixXd.solves {α : Type} [Zero α] [Add α] [Mul α] (A : MatrixXd α) (w : List α)
    (b : VectorXd α) : Prop :=
  b.size = A.rows ∧ w.length = A.cols ∧
    ∀ r, r < A.rows → (b.coeff r).isSome ∧ A.mulVec_row w r = b.coeff r

instance MatrixXd.decidableSolves {α : Type} [Zero α] [Add α] [Mul α] [DecidableEq α]
    (A : MatrixXd α) (w : List α) (b : VectorXd α) : Decidable (A.solves w b) := by
  unfold MatrixXd.solves
  infer_instance

/-- The state an outcome leaves the object in, when there is one. -/
def Outcome.state? {σ : Type} : Outcome σ → Option σ
  | Outcome.ok s => some s
  | Outcome.thrown _ s => some s
  | Outcome.fault => none

/-- The exception an outcome carries, when there is one. -/
def Outcome.exception? {σ : Type} : Outcome σ → Option GRBF_Exceptions
  | Outcome.thrown e _ => some e
  | _ => none

/-- The object `m1` differs from `m` at most in the current pair of points of its
kernel: the store, the parameters, the solver and the other members are the
same, and the kernel, when there is one, has the same derivative functions. -/
def Vector_Field.sameUpToKernelPair {α : Type} (m m1 : Vector_Field α) : Prop :=
  m1.constraints = m.constraints ∧ m1.intern_params = m.intern_params ∧
    m1.solver = m.solver ∧ m1.rbf_kernel = m.rbf_kernel ∧ m1.iteration = m.iteration ∧
    m1.kernel.map (fun k => (k.second_derivative, k.first_derivative)) =
      m.kernel.map (fun k => (k.second_derivative, k.first_derivative))

/-- Two runs end alike: both fault, or both return and the results are related. -/
def optRel {σ τ : Type} (R : σ → τ → Prop) (x : Option σ) (y : Option τ) : Prop :=
  (x = none ∧ y = none) ∨ ∃ a b, x = some a ∧ y = some b ∧ R a b

/-- The states of two runs of an evaluation loop agree: the cloned kernels have the
same derivative functions and the accumulators are equal. -/
def evalStateRel {α β : Type} (s t : Kernel α × β) : Prop :=
  s.1.second_derivative = t.1.second_derivative ∧
    s.1.first_derivative = t.1.first_derivative ∧ s.2 = t.2

/-- The outcome with its state transformed. -/
def Outcome.map {σ τ : Type} (f : σ → τ) : Outcome σ → Outcome τ
  | Outcome.ok s => Outcome.ok (f s)
  | Outcome.thrown e s => Outcome.thrown e (f s)
  | Outcome.fault => Outcome.fault

/-- The object with the inequality collection of its store replaced. -/
def Vector_Field.withInequality {α : Type} (m : Vector_Field α)
    (inequality : List (Inequality α)) : Vector_Field α :=
  { m with constraints := { m.constraints with inequality := inequality } }

/-- The states of two runs of an evaluation loop, on two points, agree: both cloned
kernels have the derivative functions of `K` and the accumulators are equal. -/
def evalPairRel {α β : Type} (K : Kernel α) (s t : Kernel α × β) : Prop :=
  s.1.second_derivative = K.second_derivative ∧
    s.1.first_derivative = K.first_derivative ∧
    t.1.second_derivative = K.second_derivative ∧
    t.1.first_derivative = K.first_derivative ∧ s.2 = t.2

/-! ## A concrete scenario

Two planar constraints at the distinct positions `(0,0,0)` and `(1,0,0)` with the
normals `(1,0,0)` and `(0,1,0)`, over the integers, with the kernel whose second
mixed derivative for the axes `i`, `j` on `(a, b)` is
`[i = j] * |a - b|^2 - 2 * (a_i - b_i) * (a_j - b_j)`. -/

/-- The coordinate of a point along an axis. -/
def Point.coord {α : Type} (p : Point α) : Axis → α
  | Axis.x => p.x
  | Axis.y => p.y
  | Axis.z => p.z

/-- The first axis named by an enumerator. -/
def Parameter_Types.SecondDerivatives.fst : SecondDerivatives → Axis
  | SecondDerivatives.DXDX => Axis.x
  | SecondDerivatives.DXDY => Axis.x
  | SecondDerivatives.DXDZ => Axis.x
  | SecondDerivatives.DYDX => Axis.y
  | SecondDerivatives.DYDY => Axis.y
  | SecondDerivatives.DYDZ => Axis.y
  | SecondDerivatives.DZDX => Axis.z
  | SecondDerivatives.DZDY => Axis.z
  | SecondDerivatives.DZDZ => Axis.z

/-- The second axis named by an enumerator. -/
def Parameter_Types.SecondDerivatives.snd : SecondDerivatives → Axis
  | SecondDerivatives.DXDX => Axis.x
  | SecondDerivatives.DXDY => Axis.y
  | SecondDerivatives.DXDZ => Axis.z
  | SecondDerivatives.DYDX => Axis.x
  | SecondDerivatives.DYDY => Axis.y
  | SecondDerivatives.DYDZ => Axis.z
  | SecondDerivatives.DZDX => Axis.x
  | SecondDerivatives.DZDY => Axis.y
  | SecondDerivatives.DZDZ => Axis.z

/-- A point of the scenario: only the position is set. -/
def scenarioPoint (x y z : Int) : Point Int :=
  { x := x, y := y, z := z, scalar_field := none, vector_field := none }

/-- The two planar constraints of the scenario. -/
def scenarioPlanar : List (Planar Int) :=
  [ { toPoint := scenarioPoint 0 0 0, nx := 1, ny := 0, nz := 0 },
    { toPoint := scenarioPoint 1 0 0, nx := 0, ny := 1, nz := 0 } ]

/-- The squared distance of two integer points. -/
def scenarioDist2 (a b : Point Int) : Int :=
  (a.x - b.x) * (a.x - b.x) + (a.y - b.y) * (a.y - b.y) + (a.z - b.z) * (a.z - b.z)

/-- The kernel of the scenario, last set to the origin twice. -/
def scenarioKernel : Kernel Int :=
  { second_derivative := fun t a b =>
      (if t.fst = t.snd then scenarioDist2 a b else 0)
        - 2 * ((a.coord t.fst - b.coord t.fst) * (a.coord t.snd - b.coord t.snd)),
    first_derivative := fun d a b => 2 * (a.coord d - b.coord d),
    p1 := scenarioPoint 0 0 0,
    p2 := scenarioPoint 0 0 0 }

/-- The counts of a store that holds nothing, as they stand before
`get_method_parameters` has run. -/
def scenarioParams : Internal_Parameters :=
  { n_interface := 0, n_inequality := 0, n_planar := 0, n_tangent := 0,
    n_constraints := 0, n_equality := 0, poly_term := false, modified_basis := false,
    problem_type := ProblemType.Linear, n_poly_terms := 0 }

/-- The method of the scenario: freshly constructed, given its kernel, before
`get_method_parameters` has run. -/
def scenarioField : Vector_Field Int :=
  { Vector_Field.new
      { interface := [], planar := scenarioPlanar, tangent := [], inequality := [] }
      scenarioParams with
    kernel := some scenarioKernel }

/-- The weights that solve the system of the scenario. -/
def scenarioWeights : List Int := [0, 1, 0, -1, 0, 0]

/-- A solver for the scenario: `solve` succeeds, with the weights `scenarioWeights`,
when these solve the system it was constructed from, and fails otherwise. -/
def scenarioSolve (llu : Linear_LU_decomposition Int) : Bool × Linear_LU_decomposition Int :=
  if llu.interpolation_matrix.solves scenarioWeights llu.equality_values then
    (true, { llu with weights := scenarioWeights })
  else (false, llu)

/-- The method of the scenario after `get_method_parameters` and
`setup_system_solver`. -/
def scenarioSolved : Vector_Field Int :=
  match scenarioField.get_method_parameters.setup_system_solver scenarioSolve with
  | Outcome.ok m => m
  | _ => scenarioField

/-- The solved method of the scenario after its store has lost the second planar
constraint and `get_method_parameters` has run again: it still holds the solver
of the earlier solve. -/
def scenarioReduced : Vector_Field Int :=
  Vector_Field.get_method_parameters
    { scenarioSolved with
      constraints :=
        { interface := [], planar := scenarioPlanar.take 1, tangent := [], inequality := [] } }

/-- The method of the scenario with one inequality constraint added to its store. -/
def scenarioWithInequality : Vector_Field Int :=
  scenarioField.withInequality
    [{ toPoint := scenarioPoint 2 0 0, bound := 0, greater := true }]

/-- A method whose store holds an interface, a tangent and an inequality constraint
and no planar constraint; its kernel is set and its solver is not. -/
def scenarioNoPlanar : Vector_Field Int :=
  { Vector_Field.new
      { interface := [{ toPoint := scenarioPoint 0 0 1, level := 0 }],
        planar := [],
        tangent := [{ toPoint := scenarioPoint 0 1 0, tx := 1, ty := 0, tz := 0 }],
        inequality := [{ toPoint := scenarioPoint 2 0 0, bound := 0, greater := true }] }
      scenarioParams with
    kernel := some scenarioKernel }

/-- A method whose store holds two planar constraints at the same position
`(0,0,0)`, with the normals `(1,0,0)` and `(0,1,0)`, and a third one at `(1,0,0)`. -/
def scenarioCoincident : Vector_Field Int :=
  Vector_Field.get_method_parameters
    { Vector_Field.new
        { interface := [],
          planar := [{ toPoint := scenarioPoint 0 0 0, nx := 1, ny := 0, nz := 0 },
                     { toPoint := scenarioPoint 0 0 0, nx := 0, ny := 1, nz := 0 },
                     { toPoint := scenarioPoint 1 0 0, nx := 0, ny := 0, nz := 1 }],
          tangent := [], inequality := [] }
        scenarioParams with
      kernel := some scenarioKernel }

/-! ## Lemmas on loops, cells and frames -/

theorem forLoop_succ {σ : Type} (n : Nat) (body : Nat → σ → Option σ) (s : σ) :
    forLoop (n + 1) body s = (forLoop n body s).bind (body n) := rfl

theorem VectorXd.set_of_lt {α : Type} (v : VectorXd α) (i : Nat) (a : α) (h : i < v.size) :
    v.set i a = some { size := v.size,
                       coeff := fun i' => if i' = i then some a else v.coeff i' } := by
  simp [VectorXd.set, h]

theorem VectorXd.set_eq_some_iff_lt {α : Type} (v : VectorXd α) (i : Nat) (a : α) :
    (v.set i a).isSome ↔ i < v.size := by
  unfold VectorXd.set
  split <;> simp [*]

/-- The loop of `get_equality_values`, run for the first `n` planar constraints on a
vector with at least `3 * n` cells: it does not fault, keeps the size, writes the
normal of constraint `j` at `3 * j`, `3 * j + 1`, `3 * j + 2` and leaves the cells
from `3 * n` on as they were. -/
theorem get_equality_values_loop {α : Type} (m : Vector_Field α) (v : VectorXd α) (n : Nat)
    (hn : n ≤ m.constraints.planar.length) (hv : 3 * n ≤ v.size) :
    ∃ v1, forLoop n m.get_equality_values_body v = some v1 ∧ v1.size = v.size ∧
      (∀ j c, j < n → m.constraints.planar[j]? = some c →
        v1.coeff (3 * j) = some c.nx ∧ v1.coeff (3 * j + 1) = some c.ny ∧
        v1.coeff (3 * j + 2) = some c.nz) ∧
      (∀ i, 3 * n ≤ i → v1.coeff i = v.coeff i) := by
  induction n with
  | zero => exact ⟨v, rfl, rfl, by intro j c hj; omega, fun _ _ => rfl⟩
  | succ n ih =>
    obtain ⟨v1, hrun, hsize, hval, hrest⟩ := ih (by omega) (by omega)
    have hlt : n < m.constraints.planar.length := by omega
    have hget : m.constraints.planar[n]? = some m.constraints.planar[n] :=
      List.getElem?_eq_getElem hlt
    rw [forLoop_succ, hrun]
    simp only [Option.some_bind, Vector_Field.get_equality_values_body, hget,
      Option.bind_eq_bind]
    rw [VectorXd.set_of_lt _ _ _ (by omega)]
    simp only [Option.some_bind]
    rw [VectorXd.set_of_lt _ _ _ (by simp only []; omega)]
    simp only [Option.some_bind]
    rw [VectorXd.set_of_lt _ _ _ (by simp only []; omega)]
    refine ⟨_, rfl, hsize, ?_, ?_⟩
    · intro j c hj hc
      by_cases hjn : j = n
      · subst hjn
        rw [hget] at hc
        cases hc
        simp
      · have hj2 : j < n := by omega
        obtain ⟨h0, h1, h2⟩ := hval j c hj2 hc
        have e0 : ¬ (3 * j = 3 * n + 2) := by omega
        have e1 : ¬ (3 * j = 3 * n + 1) := by omega
        have e2 : ¬ (3 * j = 3 * n) := by omega
        have e3 : ¬ (3 * j + 1 = 3 * n + 2) := by omega
        have e4 : ¬ (3 * j + 1 = 3 * n + 1) := by omega
        have e5 : ¬ (3 * j + 1 = 3 * n) := by omega
        have e6 : ¬ (3 * j + 2 = 3 * n + 2) := by omega
        have e7 : ¬ (3 * j + 2 = 3 * n + 1) := by omega
        have e8 : ¬ (3 * j + 2 = 3 * n) := by omega
        simp [*]
    · intro i hi
      have e0 : ¬ (i = 3 * n + 2) := by omega
      have e1 : ¬ (i = 3 * n + 1) := by omega
      have e2 : ¬ (i = 3 * n) := by omega
      simp only [e0, e1, e2, if_false]
      exact hrest i (by omega)

/-- One run of the body of the inner loop of `get_interpolation_matrix`, inside the
store and inside the matrix: only the current pair of the kernel changes in the
object, and exactly the nine cells of the block `(j, k)` are written, with the
content `planar_planar_entry`. -/
theorem get_interpolation_matrix_body_spec {α : Type} (K : Kernel α)
    (m : Vector_Field α) (A : MatrixXd α) (j k : Nat) (a b : Point α) (pj pk : Planar α)
    (hker : m.kernel = some (K.set_points a b))
    (hgj : m.constraints.planar[j]? = some pj) (hgk : m.constraints.planar[k]? = some pk)
    (hr : 3 * j + 2 < A.rows) (hc : 3 * k + 2 < A.cols) :
    ∃ A1, Vector_Field.get_interpolation_matrix_body j k (m, A) =
        some ({ m with kernel := some (K.set_points pj.toPoint pk.toPoint) }, A1) ∧
      A1.rows = A.rows ∧ A1.cols = A.cols ∧
      ∀ r c, A1.coeff r c =
        if r / 3 = j ∧ c / 3 = k then planar_planar_entry K m.constraints.planar r c
        else A.coeff r c := by
  have r0 : 3 * j < A.rows := by omega
  have r1 : 3 * j + 1 < A.rows := by omega
  have c0 : 3 * k < A.cols := by omega
  have c1 : 3 * k + 1 < A.cols := by omega
  simp only [Vector_Field.get_interpolation_matrix_body, hker, hgj, hgk, Option.some_bind,
    Option.bind_eq_bind, MatrixXd.set, r0, r1, hr, c0, c1, hc, and_self, if_true]
  refine ⟨_, rfl, rfl, rfl, ?_⟩
  intro r c
  simp only [Kernel.basis_planar_planar, Kernel.set_points, pure]
  by_cases h : r / 3 = j ∧ c / 3 = k
  · have hr3 : r % 3 = 0 ∨ r % 3 = 1 ∨ r % 3 = 2 := by omega
    have hc3 : c % 3 = 0 ∨ c % 3 = 1 ∨ c % 3 = 2 := by omega
    simp only [h, and_self, if_true, planar_planar_entry, hgj, hgk]
    rcases hr3 with h1 | h1 | h1 <;> rcases hc3 with h2 | h2 | h2 <;>
      simp only [h1, h2, Axis.ofOffset, SecondDerivatives.ofAxes]
    · have e : r = 3 * j ∧ c = 3 * k := by omega
      simp [e.1, e.2]
    · have e : r = 3 * j ∧ c = 3 * k + 1 := by omega
      simp [e.1, e.2]
    · have e : r = 3 * j ∧ c = 3 * k + 2 := by omega
      simp [e.1, e.2]
    · have e : r = 3 * j + 1 ∧ c = 3 * k := by omega
      simp [e.1, e.2]
    · have e : r = 3 * j + 1 ∧ c = 3 * k + 1 := by omega
      simp [e.1, e.2]
    · have e : r = 3 * j + 1 ∧ c = 3 * k + 2 := by omega
      simp [e.1, e.2]
    · have e : r = 3 * j + 2 ∧ c = 3 * k := by omega
      simp [e.1, e.2]
    · have e : r = 3 * j + 2 ∧ c = 3 * k + 1 := by omega
      simp [e.1, e.2]
    · have e : r = 3 * j + 2 ∧ c = 3 * k + 2 := by omega
      simp [e.1, e.2]
  · have e0 : ¬ (r = 3 * j ∧ c = 3 * k) := by omega
    have e1 : ¬ (r = 3 * j ∧ c = 3 * k + 1) := by omega
    have e2 : ¬ (r = 3 * j ∧ c = 3 * k + 2) := by omega
    have e3 : ¬ (r = 3 * j + 1 ∧ c = 3 * k) := by omega
    have e4 : ¬ (r = 3 * j + 1 ∧ c = 3 * k + 1) := by omega
    have e5 : ¬ (r = 3 * j + 1 ∧ c = 3 * k + 2) := by omega
    have e6 : ¬ (r = 3 * j + 2 ∧ c = 3 * k) := by omega
    have e7 : ¬ (r = 3 * j + 2 ∧ c = 3 * k + 1) := by omega
    have e8 : ¬ (r = 3 * j + 2 ∧ c = 3 * k + 2) := by omega
    simp only [h, e0, e1, e2, e3, e4, e5, e6, e7, e8, if_false]

/-- The inner loop of `get_interpolation_matrix` for the row block `j`, run for the
first `n` column blocks inside the store and the matrix: the cells of the blocks
`(j, k)`, `k < n`, are written and no other. -/
theorem get_interpolation_matrix_inner {α : Type} (K : Kernel α) (m : Vector_Field α)
    (A : MatrixXd α) (j n : Nat) (a b : Point α)
    (hker : m.kernel = some (K.set_points a b))
    (hj : j < m.constraints.planar.length) (hn : n ≤ m.constraints.planar.length)
    (hr : 3 * j + 2 < A.rows) (hc : 3 * n ≤ A.cols) :
    ∃ a1 b1 A1,
      forLoop n (fun k s => Vector_Field.get_interpolation_matrix_body j k s) (m, A) =
        some ({ m with kernel := some (K.set_points a1 b1) }, A1) ∧
      A1.rows = A.rows ∧ A1.cols = A.cols ∧
      ∀ r c, A1.coeff r c =
        if r / 3 = j ∧ c / 3 < n then planar_planar_entry K m.constraints.planar r c
        else A.coeff r c := by
  induction n with
  | zero =>
    refine ⟨a, b, A, ?_, rfl, rfl, ?_⟩
    · cases m
      simp only at hker
      simp [forLoop, hker]
    · intro r c
      simp
  | succ n ih =>
    obtain ⟨a1, b1, A1, hrun, hrows, hcols, hval⟩ := ih (by omega) (by omega)
    obtain ⟨pj, hgj⟩ : ∃ pj, m.constraints.planar[j]? = some pj :=
      ⟨_, List.getElem?_eq_getElem hj⟩
    obtain ⟨pn, hgn⟩ : ∃ pn, m.constraints.planar[n]? = some pn :=
      ⟨_, List.getElem?_eq_getElem (by omega)⟩
    obtain ⟨A2, hbody, hrows2, hcols2, hval2⟩ :=
      get_interpolation_matrix_body_spec K { m with kernel := some (K.set_points a1 b1) } A1
        j n a1 b1 pj pn rfl hgj hgn (by omega) (by omega)
    refine ⟨pj.toPoint, pn.toPoint, A2, ?_, by omega, by omega, ?_⟩
    · rw [forLoop_succ, hrun, Option.some_bind, hbody]
    · intro r c
      rw [hval2, hval]
      by_cases h1 : r / 3 = j
      · by_cases h2 : c / 3 = n
        · simp [h1, h2]
        · by_cases h3 : c / 3 < n
          · have h4 : c / 3 < n + 1 := by omega
            simp [h1, h2, h3, h4]
          · have h4 : ¬ (c / 3 < n + 1) := by omega
            simp [h1, h2, h3, h4]
      · simp [h1]

/-- The two nested loops of `get_interpolation_matrix`, the outer one run for the
first `n` row blocks: the cells of the blocks `(j, k)`, `j < n`, `k < n_p`, are
written and no other. -/
theorem get_interpolation_matrix_outer {α : Type} (K : Kernel α) (m : Vector_Field α)
    (A : MatrixXd α) (n n_p : Nat) (a b : Point α)
    (hker : m.kernel = some (K.set_points a b))
    (hn : n ≤ m.constraints.planar.length) (hnp : n_p ≤ m.constraints.planar.length)
    (hr : 3 * n ≤ A.rows) (hc : 3 * n_p ≤ A.cols) :
    ∃ a1 b1 A1,
      forLoop n (fun j s =>
          forLoop n_p (fun k s => Vector_Field.get_interpolation_matrix_body j k s) s) (m, A) =
        some ({ m with kernel := some (K.set_points a1 b1) }, A1) ∧
      A1.rows = A.rows ∧ A1.cols = A.cols ∧
      ∀ r c, A1.coeff r c =
        if r / 3 < n ∧ c / 3 < n_p then planar_planar_entry K m.constraints.planar r c
        else A.coeff r c := by
  induction n with
  | zero =>
    refine ⟨a, b, A, ?_, rfl, rfl, ?_⟩
    · cases m
      simp only at hker
      simp [forLoop, hker]
    · intro r c
      simp
  | succ n ih =>
    obtain ⟨a1, b1, A1, hrun, hrows, hcols, hval⟩ := ih (by omega) (by omega)
    obtain ⟨a2, b2, A2, hrun2, hrows2, hcols2, hval2⟩ :=
      get_interpolation_matrix_inner K { m with kernel := some (K.set_points a1 b1) } A1
        n n_p a1 b1 rfl (by simp only []; omega) hnp (by omega) (by omega)
    refine ⟨a2, b2, A2, ?_, by omega, by omega, ?_⟩
    · rw [forLoop_succ, hrun, Option.some_bind, hrun2]
    · intro r c
      rw [hval2, hval]
      by_cases h1 : r / 3 = n
      · have h2 : ¬ (r / 3 < n) := by omega
        have h3 : r / 3 < n + 1 := by omega
        simp [h1]
      · by_cases h3 : r / 3 < n
        · have h4 : r / 3 < n + 1 := by omega
          simp [h1, h3, h4]
        · have h4 : ¬ (r / 3 < n + 1) := by omega
          simp [h1, h3, h4]

/-- The function `get_interpolation_matrix` on an object whose kernel is set, whose
cached planar count is within the store, and on a matrix with at least
`3 * n_planar` rows and columns: it returns `true`, changes only the current pair
of the kernel, keeps the dimensions and writes exactly the cells of the leading
`3 * n_planar` square, with the content `planar_planar_entry`. -/
theorem get_interpolation_matrix_spec {α : Type} (K : Kernel α) (m : Vector_Field α)
    (A : MatrixXd α) (hker : m.kernel = some K)
    (hnp : m.intern_params.n_planar ≤ m.constraints.planar.length)
    (hr : 3 * m.intern_params.n_planar ≤ A.rows) (hc : 3 * m.intern_params.n_planar ≤ A.cols) :
    ∃ a b A1,
      m.get_interpolation_matrix A =
        some (true, A1, { m with kernel := some (K.set_points a b) }) ∧
      A1.rows = A.rows ∧ A1.cols = A.cols ∧
      ∀ r c, A1.coeff r c =
        if r / 3 < m.intern_params.n_planar ∧ c / 3 < m.intern_params.n_planar then
          planar_planar_entry K m.constraints.planar r c
        else A.coeff r c := by
  obtain ⟨a, b, A1, hrun, hrows, hcols, hval⟩ :=
    get_interpolation_matrix_outer K m A m.intern_params.n_planar m.intern_params.n_planar
      K.p1 K.p2 hker hnp hnp hr hc
  refine ⟨a, b, A1, ?_, hrows, hcols, hval⟩
  simp only [Vector_Field.get_interpolation_matrix, hrun, Option.some_bind,
    Option.bind_eq_bind, pure]

/-- The kernel of the scenario satisfies the symmetry contract of the spec. -/
theorem scenarioKernel_symmetric (i j : Axis) (a b : Point Int) :
    scenarioKernel.second_derivative (SecondDerivatives.ofAxes i j) a b =
      scenarioKernel.second_derivative (SecondDerivatives.ofAxes j i) b a := by
  cases i <;> cases j <;>
    simp [scenarioKernel, SecondDerivatives.ofAxes, SecondDerivatives.fst,
      SecondDerivatives.snd, scenarioDist2, Point.coord] <;> ring

/-- The loop of `eval_vector_interpolant_at_point`, run for the first `n` planar
constraints with the weights `w i`, `i < 3 * n`, and the constraints `planar k`,
`k < n`, in range: it does not fault and adds to each accumulator the sum over
`k < n` and the source offsets `s < 3` of `w (3 * k + s)` times the second
derivative for the output axis and the axis of `s`, on `(p, planar k)`. -/
theorem eval_vector_loop {α : Type} [AddCommMonoid α] [Mul α] (m : Vector_Field α)
    (K : Kernel α) (S : Linear_LU_decomposition α) (p : Point α) (hsol : m.solver = some S)
    (w : Nat → α) (planar : Nat → Planar α) (n : Nat)
    (hw : ∀ i, i < 3 * n → S.weights[i]? = some (w i))
    (hp : ∀ k, k < n → m.constraints.planar[k]? = some (planar k))
    (a b : Point α) (ex ey ez : α) :
    ∃ a1 b1, forLoop n (m.eval_vector_body p) (K.set_points a b, ex, ey, ez) =
      some (K.set_points a1 b1,
        ex + ∑ k in Finset.range n, ∑ s in Finset.range 3, w (3 * k + s) *
          K.second_derivative (SecondDerivatives.ofAxes Axis.x (Axis.ofOffset s)) p
            (planar k).toPoint,
        ey + ∑ k in Finset.range n, ∑ s in Finset.range 3, w (3 * k + s) *
          K.second_derivative (SecondDerivatives.ofAxes Axis.y (Axis.ofOffset s)) p
            (planar k).toPoint,
        ez + ∑ k in Finset.range n, ∑ s in Finset.range 3, w (3 * k + s) *
          K.second_derivative (SecondDerivatives.ofAxes Axis.z (Axis.ofOffset s)) p
            (planar k).toPoint) := by
  induction n with
  | zero => exact ⟨a, b, by simp [forLoop]⟩
  | succ n ih =>
    obtain ⟨a1, b1, hrun⟩ := ih (fun i hi => hw i (by omega)) (fun k hk => hp k (by omega))
    refine ⟨p, (planar n).toPoint, ?_⟩
    rw [forLoop_succ, hrun, Option.some_bind]
    simp only [Vector_Field.eval_vector_body, hp n (Nat.lt_succ_self n), hsol,
      hw (3 * n) (by omega), hw (3 * n + 1) (by omega), hw (3 * n + 2) (by omega),
      Option.some_bind, Option.bind_eq_bind, pure, Kernel.basis_planar_planar,
      Kernel.set_points, Finset.sum_range_succ, Finset.sum_range_zero, zero_add,
      Axis.ofOffset, SecondDerivatives.ofAxes, add_assoc, add_zero]

/-- The loop of `eval_scalar_interpolant_at_point`, run for the first `n` planar
constraints with the weights and the constraints in range: it does not fault and
adds to `elemsum` the sum over `k < n` and the offsets `s < 3` of `w (3 * k + s)`
times the first derivative along the axis of `s`, on `(p, planar k)`. -/
theorem eval_scalar_loop {α : Type} [AddCommMonoid α] [Mul α] (m : Vector_Field α)
    (K : Kernel α) (S : Linear_LU_decomposition α) (p : Point α) (hsol : m.solver = some S)
    (w : Nat → α) (planar : Nat → Planar α) (n : Nat)
    (hw : ∀ i, i < 3 * n → S.weights[i]? = some (w i))
    (hp : ∀ k, k < n → m.constraints.planar[k]? = some (planar k))
    (a b : Point α) (e : α) :
    ∃ a1 b1, forLoop n (m.eval_scalar_body p) (K.set_points a b, e) =
      some (K.set_points a1 b1,
        e + ∑ k in Finset.range n, ∑ s in Finset.range 3, w (3 * k + s) *
          K.first_derivative (Axis.ofOffset s) p (planar k).toPoint) := by
  induction n with
  | zero => exact ⟨a, b, by simp [forLoop]⟩
  | succ n ih =>
    obtain ⟨a1, b1, hrun⟩ := ih (fun i hi => hw i (by omega)) (fun k hk => hp k (by omega))
    refine ⟨p, (planar n).toPoint, ?_⟩
    rw [forLoop_succ, hrun, Option.some_bind]
    simp only [Vector_Field.eval_scalar_body, hp n (Nat.lt_succ_self n), hsol,
      hw (3 * n) (by omega), hw (3 * n + 1) (by omega), hw (3 * n + 2) (by omega),
      Option.some_bind, Option.bind_eq_bind, pure, Kernel.basis_pt_planar_x,
      Kernel.basis_pt_planar_y, Kernel.basis_pt_planar_z,
      Kernel.set_points, Finset.sum_range_succ, Finset.sum_range_zero, zero_add,
      Axis.ofOffset, add_assoc, add_zero]

/-- A sum over `3 * n` indices, regrouped in `n` blocks of three. -/
theorem sum_range_three_mul {α : Type} [AddCommMonoid α] (f : Nat → α) (n : Nat) :
    ∑ c in Finset.range (3 * n), f c =
      ∑ k in Finset.range n, ∑ s in Finset.range 3, f (3 * k + s) := by
  induction n with
  | zero => simp
  | succ n ih =>
    have e : 3 * (n + 1) = 3 * n + 1 + 1 + 1 := by ring
    rw [e, Finset.sum_range_succ, Finset.sum_range_succ, Finset.sum_range_succ, ih,
      Finset.sum_range_succ _ n]
    simp [Finset.sum_range_succ, add_assoc]

/-- Row `r` of `A * w` when the cells of the row and the entries of `w` are known. -/
theorem MatrixXd.mulVec_row_eq {α : Type} [AddCommMonoid α] [Mul α] (A : MatrixXd α)
    (w : List α) (r : Nat) (af wf : Nat → α)
    (hA : ∀ c, c < A.cols → A.coeff r c = some (af c))
    (hw : ∀ c, c < A.cols → w[c]? = some (wf c)) :
    A.mulVec_row w r = some (∑ c in Finset.range A.cols, af c * wf c) := by
  have aux : ∀ N, N ≤ A.cols →
      forLoop N (fun c acc => do
        let a ← A.coeff r c
        let x ← w[c]?
        pure (acc + a * x)) 0 = some (∑ c in Finset.range N, af c * wf c) := by
    intro N
    induction N with
    | zero => intro _; simp [forLoop]
    | succ N ih =>
      intro hN
      rw [forLoop_succ, ih (by omega)]
      simp [hA N (by omega), hw N (by omega), Finset.sum_range_succ]
  exact aux A.cols (le_refl _)

/-- The kernel of the scenario reads only the positions of its two points. -/
theorem scenarioKernel_positions (a b : Point Int) :
    (scenarioKernel.set_points a b).dependsOnPositionsOnly := by
  constructor
  · intro t p p1 q q1 hp hq
    obtain ⟨h1, h2, h3⟩ := hp
    obtain ⟨h4, h5, h6⟩ := hq
    cases t <;>
      simp [scenarioKernel, Kernel.set_points, scenarioDist2, Point.coord,
        SecondDerivatives.fst, SecondDerivatives.snd, h1, h2, h3, h4, h5, h6]
  · intro d p p1 q q1 hp hq
    obtain ⟨h1, h2, h3⟩ := hp
    obtain ⟨h4, h5, h6⟩ := hq
    cases d <;> simp [scenarioKernel, Kernel.set_points, Point.coord, h1, h2, h3, h4, h5, h6]

/-- A property kept by every run of the body is kept by the loop. -/
theorem forLoop_preserves {σ : Type} (P : σ → Prop) (body : Nat → σ → Option σ)
    (hbody : ∀ j s s1, P s → body j s = some s1 → P s1) :
    ∀ n s s1, P s → forLoop n body s = some s1 → P s1 := by
  intro n
  induction n with
  | zero =>
    intro s s1 hP h
    simp only [forLoop, Option.some.injEq] at h
    exact h ▸ hP
  | succ n ih =>
    intro s s1 hP h
    rw [forLoop_succ] at h
    cases hrun : forLoop n body s with
    | none => rw [hrun] at h; cases h
    | some s2 =>
      rw [hrun, Option.some_bind] at h
      exact hbody n s2 s1 (ih s s2 hP hrun) h

/-- A run of the body of the inner loop of `get_interpolation_matrix` that does not
fault changes at most the current pair of the kernel of the object. -/
theorem get_interpolation_matrix_body_frame {α : Type} (j k : Nat)
    (s s1 : Vector_Field α × MatrixXd α)
    (h : Vector_Field.get_interpolation_matrix_body j k s = some s1) :
    s.1.sameUpToKernelPair s1.1 := by
  simp only [Vector_Field.get_interpolation_matrix_body, Option.bind_eq_bind,
    Option.bind_eq_some, pure, Option.some.injEq] at h
  obtain ⟨K, hK, pj, -, pk, -, A1, -, A2, -, A3, -, A4, -, A5, -, A6, -, A7, -, A8, -, A9, -,
    hs1⟩ := h
  subst hs1
  simp [Vector_Field.sameUpToKernelPair, hK, Kernel.set_points]

theorem Vector_Field.sameUpToKernelPair_refl {α : Type} (m : Vector_Field α) :
    m.sameUpToKernelPair m :=
  ⟨rfl, rfl, rfl, rfl, rfl, rfl⟩

theorem Vector_Field.sameUpToKernelPair_trans {α : Type} {m m1 m2 : Vector_Field α}
    (h1 : m.sameUpToKernelPair m1) (h2 : m1.sameUpToKernelPair m2) :
    m.sameUpToKernelPair m2 := by
  refine ⟨h2.1.trans h1.1, h2.2.1.trans h1.2.1, h2.2.2.1.trans h1.2.2.1, ?_, ?_, ?_⟩
  · exact h2.2.2.2.1.trans h1.2.2.2.1
  · exact h2.2.2.2.2.1.trans h1.2.2.2.2.1
  · exact h2.2.2.2.2.2.trans h1.2.2.2.2.2

/-- A call of `get_interpolation_matrix` that does not fault returns `true` and
changes at most the current pair of the kernel of the object. -/
theorem get_interpolation_matrix_frame {α : Type} (m m1 : Vector_Field α)
    (A A1 : MatrixXd α) (flag : Bool)
    (h : m.get_interpolation_matrix A = some (flag, A1, m1)) :
    flag = true ∧ m.sameUpToKernelPair m1 := by
  simp only [Vector_Field.get_interpolation_matrix, Option.bind_eq_bind,
    Option.bind_eq_some, pure, Option.some.injEq, Prod.mk.injEq] at h
  obtain ⟨s, hrun, hflag, -, hm1⟩ := h
  refine ⟨hflag.symm, ?_⟩
  subst hm1
  refine forLoop_preserves (fun s => m.sameUpToKernelPair s.1) _ ?_ _ (m, A) s
    (Vector_Field.sameUpToKernelPair_refl m) hrun
  intro j s2 s3 hP hin
  refine forLoop_preserves (fun s => m.sameUpToKernelPair s.1) _ ?_ _ s2 s3 hP hin
  intro k s4 s5 hP4 hbody
  exact Vector_Field.sameUpToKernelPair_trans hP4
    (get_interpolation_matrix_body_frame j k s4 s5 hbody)

/-- A call of `get_equality_values` that does not fault returns `true` and leaves
the object as it was. -/
theorem get_equality_values_frame {α : Type} (m m1 : Vector_Field α)
    (v v1 : VectorXd α) (flag : Bool)
    (h : m.get_equality_values v = some (flag, v1, m1)) :
    flag = true ∧ m1 = m := by
  simp only [Vector_Field.get_equality_values, Option.bind_eq_bind,
    Option.bind_eq_some, pure, Option.some.injEq, Prod.mk.injEq] at h
  obtain ⟨s, -, hflag, -, hm1⟩ := h
  exact ⟨hflag.symm, hm1.symm⟩

/-- A function of the state that commutes with the body commutes with the loop. -/
theorem forLoop_map {σ τ : Type} (φ : σ → τ) (f : Nat → σ → Option σ)
    (g : Nat → τ → Option τ) (h : ∀ j s, g j (φ s) = (f j s).map φ) :
    ∀ n s, forLoop n g (φ s) = (forLoop n f s).map φ := by
  intro n
  induction n with
  | zero => intro s; rfl
  | succ n ih =>
    intro s
    rw [forLoop_succ, forLoop_succ, ih]
    cases forLoop n f s with
    | none => rfl
    | some s1 => simp [h]

/-- The body of the inner loop of `get_interpolation_matrix` does not read the
`solver` member: it commutes with replacing it. -/
theorem get_interpolation_matrix_body_solver {α : Type} (j k : Nat)
    (x : Option (Linear_LU_decomposition α)) (s : Vector_Field α × MatrixXd α) :
    Vector_Field.get_interpolation_matrix_body j k ({ s.1 with solver := x }, s.2) =
      (Vector_Field.get_interpolation_matrix_body j k s).map
        (fun r => ({ r.1 with solver := x }, r.2)) := by
  simp only [Vector_Field.get_interpolation_matrix_body, Option.bind_eq_bind, Option.map_bind, Function.comp_def,
    pure, Option.map_some']

/-- The function `get_interpolation_matrix` does not read the `solver` member. -/
theorem get_interpolation_matrix_solver {α : Type} (m : Vector_Field α)
    (x : Option (Linear_LU_decomposition α)) (A : MatrixXd α) :
    Vector_Field.get_interpolation_matrix { m with solver := x } A =
      (m.get_interpolation_matrix A).map (fun r => (r.1, r.2.1, { r.2.2 with solver := x })) := by
  have hloop := forLoop_map
    (fun s : Vector_Field α × MatrixXd α => (({ s.1 with solver := x } : Vector_Field α), s.2))
    (fun j s => forLoop m.intern_params.n_planar
      (fun k s => Vector_Field.get_interpolation_matrix_body j k s) s)
    (fun j s => forLoop m.intern_params.n_planar
      (fun k s => Vector_Field.get_interpolation_matrix_body j k s) s)
    (fun j s => forLoop_map _ _ _ (fun k s => get_interpolation_matrix_body_solver j k x s)
      m.intern_params.n_planar s)
    m.intern_params.n_planar (m, A)
  simp only [Vector_Field.get_interpolation_matrix, Option.bind_eq_bind, pure]
  simp only at hloop
  rw [hloop]
  cases forLoop m.intern_params.n_planar (fun j s => forLoop m.intern_params.n_planar
      (fun k s => Vector_Field.get_interpolation_matrix_body j k s) s) (m, A) with
  | none => rfl
  | some s => rfl

/-- The function `get_equality_values` does not read the `solver` member. -/
theorem get_equality_values_solver {α : Type} (m : Vector_Field α)
    (x : Option (Linear_LU_decomposition α)) (v : VectorXd α) :
    Vector_Field.get_equality_values { m with solver := x } v =
      (m.get_equality_values v).map (fun r => (r.1, r.2.1, { r.2.2 with solver := x })) := by
  have hbody : Vector_Field.get_equality_values_body { m with solver := x } =
      m.get_equality_values_body := rfl
  simp only [Vector_Field.get_equality_values, Option.bind_eq_bind, pure, hbody]
  cases forLoop m.constraints.planar.length m.get_equality_values_body v with
  | none => rfl
  | some s => rfl

/-- Two loops whose bodies keep a relation between their states keep it. -/
theorem forLoop_rel {σ τ : Type} (R : σ → τ → Prop) (f : Nat → σ → Option σ)
    (g : Nat → τ → Option τ) (h : ∀ j s t, R s t → optRel R (f j s) (g j t)) :
    ∀ n s t, R s t → optRel R (forLoop n f s) (forLoop n g t) := by
  intro n
  induction n with
  | zero => intro s t hR; exact Or.inr ⟨s, t, rfl, rfl, hR⟩
  | succ n ih =>
    intro s t hR
    rw [forLoop_succ, forLoop_succ]
    rcases ih s t hR with ⟨h1, h2⟩ | ⟨s1, t1, h1, h2, hR1⟩
    · rw [h1, h2]
      exact Or.inl ⟨rfl, rfl⟩
    · rw [h1, h2]
      exact h n s1 t1 hR1

/-- A run ends like itself, for a reflexive relation. -/
theorem optRel_refl {σ : Type} (R : σ → σ → Prop) (h : ∀ a, R a a) (x : Option σ) :
    optRel R x x := by
  cases x with
  | none => exact Or.inl ⟨rfl, rfl⟩
  | some a => exact Or.inr ⟨a, a, rfl, rfl, h a⟩

/-- The body of the loop of `eval_vector_interpolant_at_point` reads the store, the
solver and the derivative functions of the cloned kernel only. -/
theorem eval_vector_body_rel {α : Type} [Add α] [Mul α] (m m1 : Vector_Field α)
    (hc : m1.constraints = m.constraints) (hs : m1.solver = m.solver) (p : Point α) (k : Nat)
    (s t : Kernel α × α × α × α) (hR : evalStateRel s t) :
    optRel evalStateRel (m1.eval_vector_body p k s) (m.eval_vector_body p k t) := by
  obtain ⟨h1, h2, h3⟩ := hR
  simp only [Vector_Field.eval_vector_body, hc, hs, Option.bind_eq_bind, pure,
    Kernel.set_points, Kernel.basis_planar_planar, h1, h2, h3]
  exact optRel_refl evalStateRel (fun a => ⟨rfl, rfl, rfl⟩) _

/-- The body of the loop of `eval_scalar_interpolant_at_point` reads the store, the
solver and the derivative functions of the cloned kernel only. -/
theorem eval_scalar_body_rel {α : Type} [Add α] [Mul α] (m m1 : Vector_Field α)
    (hc : m1.constraints = m.constraints) (hs : m1.solver = m.solver) (p : Point α) (k : Nat)
    (s t : Kernel α × α) (hR : evalStateRel s t) :
    optRel evalStateRel (m1.eval_scalar_body p k s) (m.eval_scalar_body p k t) := by
  obtain ⟨h1, h2, h3⟩ := hR
  simp only [Vector_Field.eval_scalar_body, hc, hs, Option.bind_eq_bind, pure,
    Kernel.set_points, Kernel.basis_pt_planar_x, Kernel.basis_pt_planar_y,
    Kernel.basis_pt_planar_z, h1, h2, h3]
  exact optRel_refl evalStateRel (fun a => ⟨rfl, rfl, rfl⟩) _

/-- On two objects that differ at most in the current pair of the kernel,
`eval_vector_interpolant_at_point` faults on both or writes the same point. -/
theorem eval_vector_congr {α : Type} [Zero α] [Add α] [Mul α] (m m1 : Vector_Field α)
    (h : m.sameUpToKernelPair m1) (p : Point α) :
    (m1.eval_vector_interpolant_at_point p).map Prod.fst =
      (m.eval_vector_interpolant_at_point p).map Prod.fst := by
  obtain ⟨hc, hip, hs, -, -, hk⟩ := h
  simp only [Vector_Field.eval_vector_interpolant_at_point, Option.bind_eq_bind, pure, hip]
  cases hk1 : m1.kernel with
  | none =>
    cases hk0 : m.kernel with
    | none => rfl
    | some K => rw [hk1, hk0] at hk; simp at hk
  | some K1 =>
    cases hk0 : m.kernel with
    | none => rw [hk1, hk0] at hk; simp at hk
    | some K =>
      rw [hk1, hk0] at hk
      simp only [Option.map_some', Option.some.injEq, Prod.mk.injEq] at hk
      have hloop := forLoop_rel evalStateRel (m1.eval_vector_body p) (m.eval_vector_body p)
        (fun k s t hR => eval_vector_body_rel m m1 hc hs p k s t hR) m.intern_params.n_planar
        (K1.clone, 0, 0, 0) (K.clone, 0, 0, 0) ⟨hk.1, hk.2, rfl⟩
      simp only [Option.some_bind]
      rcases hloop with ⟨h1, h2⟩ | ⟨s1, t1, h1, h2, -, -, hacc⟩
      · rw [h1, h2]
        rfl
      · rw [h1, h2]
        simp [hacc]

/-- On two objects that differ at most in the current pair of the kernel,
`eval_scalar_interpolant_at_point` faults on both or writes the same point. -/
theorem eval_scalar_congr {α : Type} [Zero α] [Add α] [Mul α] (m m1 : Vector_Field α)
    (h : m.sameUpToKernelPair m1) (p : Point α) :
    (m1.eval_scalar_interpolant_at_point p).map Prod.fst =
      (m.eval_scalar_interpolant_at_point p).map Prod.fst := by
  obtain ⟨hc, hip, hs, -, -, hk⟩ := h
  simp only [Vector_Field.eval_scalar_interpolant_at_point, Option.bind_eq_bind, pure, hip]
  cases hk1 : m1.kernel with
  | none =>
    cases hk0 : m.kernel with
    | none => rfl
    | some K => rw [hk1, hk0] at hk; simp at hk
  | some K1 =>
    cases hk0 : m.kernel with
    | none => rw [hk1, hk0] at hk; simp at hk
    | some K =>
      rw [hk1, hk0] at hk
      simp only [Option.map_some', Option.some.injEq, Prod.mk.injEq] at hk
      have hloop := forLoop_rel evalStateRel (m1.eval_scalar_body p) (m.eval_scalar_body p)
        (fun k s t hR => eval_scalar_body_rel m m1 hc hs p k s t hR) m.intern_params.n_planar
        (K1.clone, 0) (K.clone, 0) ⟨hk.1, hk.2, rfl⟩
      simp only [Option.some_bind]
      rcases hloop with ⟨h1, h2⟩ | ⟨s1, t1, h1, h2, -, -, hacc⟩
      · rw [h1, h2]
        rfl
      · rw [h1, h2]
        simp [hacc]

/-- When `setup_system_solver` throws, the object differs from the one before the
call at most in the current pair of the kernel. -/
theorem setup_system_solver_thrown_frame {α : Type}
    (solve : Linear_LU_decomposition α → Bool × Linear_LU_decomposition α)
    (m m1 : Vector_Field α) (e : GRBF_Exceptions)
    (h : m.setup_system_solver solve = Outcome.thrown e m1) : m.sameUpToKernelPair m1 := by
  cases hb : m.get_equality_values
      (VectorXd.alloc (m.intern_params.n_equality + m.intern_params.n_poly_terms)) with
  | none => simp [Vector_Field.setup_system_solver, hb] at h
  | some rb =>
    obtain ⟨flag, b, m2⟩ := rb
    obtain ⟨-, hm2⟩ := get_equality_values_frame m m2 _ b flag hb
    subst hm2
    cases hA : m2.get_interpolation_matrix
        (MatrixXd.alloc (m2.intern_params.n_equality + m2.intern_params.n_poly_terms)
          (m2.intern_params.n_equality + m2.intern_params.n_poly_terms)) with
    | none => simp [Vector_Field.setup_system_solver, hb, hA] at h
    | some rA =>
      obtain ⟨fl, A, m3⟩ := rA
      obtain ⟨hfl, hframe⟩ := get_interpolation_matrix_frame m2 m3 _ A fl hA
      subst hfl
      cases hs : solve (Linear_LU_decomposition.new A b) with
      | mk ok llu =>
        cases ok
        · simp only [Vector_Field.setup_system_solver, hb, hA, hs, Outcome.thrown.injEq] at h
          rw [← h.2]
          exact hframe
        · simp [Vector_Field.setup_system_solver, hb, hA, hs] at h

/-- The body of the inner loop of `get_interpolation_matrix` does not read the
inequality collection: it commutes with replacing it. -/
theorem get_interpolation_matrix_body_inequality {α : Type} (j k : Nat)
    (x : List (Inequality α)) (s : Vector_Field α × MatrixXd α) :
    Vector_Field.get_interpolation_matrix_body j k (s.1.withInequality x, s.2) =
      (Vector_Field.get_interpolation_matrix_body j k s).map
        (fun r => (r.1.withInequality x, r.2)) := by
  simp only [Vector_Field.get_interpolation_matrix_body, Vector_Field.withInequality,
    Option.bind_eq_bind, Option.map_bind, Function.comp_def, pure, Option.map_some']

/-- The function `get_interpolation_matrix` does not read the inequality collection. -/
theorem get_interpolation_matrix_inequality {α : Type} (m : Vector_Field α)
    (x : List (Inequality α)) (A : MatrixXd α) :
    (m.withInequality x).get_interpolation_matrix A =
      (m.get_interpolation_matrix A).map
        (fun r => (r.1, r.2.1, r.2.2.withInequality x)) := by
  have hloop := forLoop_map
    (fun s : Vector_Field α × MatrixXd α => (s.1.withInequality x, s.2))
    (fun j s => forLoop m.intern_params.n_planar
      (fun k s => Vector_Field.get_interpolation_matrix_body j k s) s)
    (fun j s => forLoop m.intern_params.n_planar
      (fun k s => Vector_Field.get_interpolation_matrix_body j k s) s)
    (fun j s => forLoop_map _ _ _ (fun k s => get_interpolation_matrix_body_inequality j k x s)
      m.intern_params.n_planar s)
    m.intern_params.n_planar (m, A)
  have hnp : (m.withInequality x).intern_params = m.intern_params := rfl
  simp only [Vector_Field.get_interpolation_matrix, Option.bind_eq_bind, pure, hnp]
  simp only at hloop
  rw [hloop]
  cases forLoop m.intern_params.n_planar (fun j s => forLoop m.intern_params.n_planar
      (fun k s => Vector_Field.get_interpolation_matrix_body j k s) s) (m, A) with
  | none => rfl
  | some s => rfl

/-- The function `get_equality_values` does not read the inequality collection. -/
theorem get_equality_values_inequality {α : Type} (m : Vector_Field α)
    (x : List (Inequality α)) (v : VectorXd α) :
    (m.withInequality x).get_equality_values v =
      (m.get_equality_values v).map (fun r => (r.1, r.2.1, r.2.2.withInequality x)) := by
  have hbody : (m.withInequality x).get_equality_values_body = m.get_equality_values_body := rfl
  have hlen : (m.withInequality x).constraints.planar = m.constraints.planar := rfl
  simp only [Vector_Field.get_equality_values, Option.bind_eq_bind, pure, hbody, hlen]
  cases forLoop m.constraints.planar.length m.get_equality_values_body v with
  | none => rfl
  | some s => rfl

/-- The function `setup_system_solver` does not read the inequality collection: it
ends on the object with another collection as on the object itself. -/
theorem setup_system_solver_inequality {α : Type}
    (solve : Linear_LU_decomposition α → Bool × Linear_LU_decomposition α)
    (m : Vector_Field α) (x : List (Inequality α)) :
    (m.withInequality x).setup_system_solver solve =
      (m.setup_system_solver solve).map (fun r => r.withInequality x) := by
  have hip : (m.withInequality x).intern_params = m.intern_params := rfl
  simp only [Vector_Field.setup_system_solver, hip, get_equality_values_inequality]
  cases hb : m.get_equality_values
      (VectorXd.alloc (m.intern_params.n_equality + m.intern_params.n_poly_terms)) with
  | none => rfl
  | some rb =>
    obtain ⟨flag, b, m2⟩ := rb
    simp only [Option.map_some', get_interpolation_matrix_inequality]
    cases hA : m2.get_interpolation_matrix
        (MatrixXd.alloc (m.intern_params.n_equality + m.intern_params.n_poly_terms)
          (m.intern_params.n_equality + m.intern_params.n_poly_terms)) with
    | none => rfl
    | some rA =>
      obtain ⟨fl, A, m3⟩ := rA
      cases fl
      · rfl
      · simp only [Option.map_some']
        cases hs : solve (Linear_LU_decomposition.new A b) with
        | mk ok llu => cases ok <;> rfl

/-- Two runs that start with the same read and continue alike end alike. -/
theorem optRel_bind {ι σ τ : Type} (R : σ → τ → Prop) (x : Option ι)
    (f : ι → Option σ) (g : ι → Option τ) (h : ∀ a, optRel R (f a) (g a)) :
    optRel R (x.bind f) (x.bind g) := by
  cases x with
  | none => exact Or.inl ⟨rfl, rfl⟩
  | some a => exact h a

/-- For a kernel that depends on positions only, the body of the loop of
`eval_scalar_interpolant_at_point` run on two points at the same position ends
alike: both runs fault or both return the same `elemsum`. -/
theorem eval_scalar_body_position {α : Type} [Add α] [Mul α] (m : Vector_Field α)
    (K : Kernel α) (hpos : K.dependsOnPositionsOnly) (p q : Point α)
    (hpq : p.samePosition q) (k : Nat) (s t : Kernel α × α) (hR : evalPairRel K s t) :
    optRel (evalPairRel K) (m.eval_scalar_body p k s) (m.eval_scalar_body q k t) := by
  obtain ⟨h1, h2, h3, h4, h5⟩ := hR
  have hrw : ∀ d (c : Point α), K.first_derivative d p c = K.first_derivative d q c :=
    fun d c => hpos.2 d p q c c hpq ⟨rfl, rfl, rfl⟩
  simp only [Vector_Field.eval_scalar_body, Option.bind_eq_bind, pure,
    Kernel.set_points, Kernel.basis_pt_planar_x, Kernel.basis_pt_planar_y,
    Kernel.basis_pt_planar_z, h1, h2, h3, h4, h5, hrw]
  refine optRel_bind _ _ _ _ (fun c => ?_)
  refine optRel_bind _ _ _ _ (fun S => ?_)
  refine optRel_bind _ _ _ _ (fun w0 => ?_)
  refine optRel_bind _ _ _ _ (fun w1 => ?_)
  refine optRel_bind _ _ _ _ (fun w2 => ?_)
  exact Or.inr ⟨_, _, rfl, rfl, rfl, rfl, rfl, rfl, rfl⟩

/-- For a kernel that depends on positions only, the body of the loop of
`eval_vector_interpolant_at_point` run on two points at the same position ends
alike: both runs fault or both return the same three sums. -/
theorem eval_vector_body_position {α : Type} [Add α] [Mul α] (m : Vector_Field α)
    (K : Kernel α) (hpos : K.dependsOnPositionsOnly) (p q : Point α)
    (hpq : p.samePosition q) (k : Nat) (s t : Kernel α × α × α × α)
    (hR : evalPairRel K s t) :
    optRel (evalPairRel K) (m.eval_vector_body p k s) (m.eval_vector_body q k t) := by
  obtain ⟨h1, h2, h3, h4, h5⟩ := hR
  have hrw : ∀ d (c : Point α), K.second_derivative d p c = K.second_derivative d q c :=
    fun d c => hpos.1 d p q c c hpq ⟨rfl, rfl, rfl⟩
  simp only [Vector_Field.eval_vector_body, Option.bind_eq_bind, pure,
    Kernel.set_points, Kernel.basis_planar_planar, h1, h2, h3, h4, h5, hrw]
  refine optRel_bind _ _ _ _ (fun c => ?_)
  refine optRel_bind _ _ _ _ (fun S => ?_)
  refine optRel_bind _ _ _ _ (fun w0 => ?_)
  refine optRel_bind _ _ _ _ (fun w1 => ?_)
  refine optRel_bind _ _ _ _ (fun w2 => ?_)
  refine optRel_bind _ _ _ _ (fun w3 => ?_)
  refine optRel_bind _ _ _ _ (fun w4 => ?_)
  refine optRel_bind _ _ _ _ (fun w5 => ?_)
  refine optRel_bind _ _ _ _ (fun w6 => ?_)
  refine optRel_bind _ _ _ _ (fun w7 => ?_)
  refine optRel_bind _ _ _ _ (fun w8 => ?_)
  exact Or.inr ⟨_, _, rfl, rfl, rfl, rfl, rfl, rfl, rfl⟩

/-- For a kernel that depends on positions only, `eval_scalar_interpolant_at_point`
on two points at the same position faults on both or writes the same scalar. -/
theorem eval_scalar_position {α : Type} [Zero α] [Add α] [Mul α] (m : Vector_Field α)
    (K : Kernel α) (hker : m.kernel = some K) (hpos : K.dependsOnPositionsOnly)
    (p q : Point α) (hpq : p.samePosition q) :
    (m.eval_scalar_interpolant_at_point p).map (fun r => r.1.scalar_field) =
      (m.eval_scalar_interpolant_at_point q).map (fun r => r.1.scalar_field) := by
  have hloop := forLoop_rel (evalPairRel K) (m.eval_scalar_body p) (m.eval_scalar_body q)
    (fun k s t hR => eval_scalar_body_position m K hpos p q hpq k s t hR)
    m.intern_params.n_planar (K.clone, 0) (K.clone, 0) ⟨rfl, rfl, rfl, rfl, rfl⟩
  simp only [Vector_Field.eval_scalar_interpolant_at_point, Option.bind_eq_bind, pure, hker,
    Option.some_bind]
  rcases hloop with ⟨h1, h2⟩ | ⟨s1, t1, h1, h2, -, -, -, -, hacc⟩
  · rw [h1, h2]
    rfl
  · rw [h1, h2]
    simp [hacc, Point.set_scalar_field]

/-- For a kernel that depends on positions only, `eval_vector_interpolant_at_point`
on two points at the same position faults on both or writes the same vector. -/
theorem eval_vector_position {α : Type} [Zero α] [Add α] [Mul α] (m : Vector_Field α)
    (K : Kernel α) (hker : m.kernel = some K) (hpos : K.dependsOnPositionsOnly)
    (p q : Point α) (hpq : p.samePosition q) :
    (m.eval_vector_interpolant_at_point p).map (fun r => r.1.vector_field) =
      (m.eval_vector_interpolant_at_point q).map (fun r => r.1.vector_field) := by
  have hloop := forLoop_rel (evalPairRel K) (m.eval_vector_body p) (m.eval_vector_body q)
    (fun k s t hR => eval_vector_body_position m K hpos p q hpq k s t hR)
    m.intern_params.n_planar (K.clone, 0, 0, 0) (K.clone, 0, 0, 0) ⟨rfl, rfl, rfl, rfl, rfl⟩
  simp only [Vector_Field.eval_vector_interpolant_at_point, Option.bind_eq_bind, pure, hker,
    Option.some_bind]
  rcases hloop with ⟨h1, h2⟩ | ⟨s1, t1, h1, h2, -, -, -, -, hacc⟩
  · rw [h1, h2]
    rfl
  · rw [h1, h2]
    simp [hacc, Point.set_vector_field]

/-- A call of `eval_scalar_interpolant_at_point` that returns leaves the object as it
was and returns the point with `elemsum`, as it stands after the loop, written
to its scalar field. -/
theorem eval_scalar_returns {α : Type} [Zero α] [Add α] [Mul α] (m m1 : Vector_Field α)
    (p p1 : Point α) (h : m.eval_scalar_interpolant_at_point p = some (p1, m1)) :
    m1 = m ∧ ∃ K s, m.kernel = some K ∧
      forLoop m.intern_params.n_planar (m.eval_scalar_body p) (K.clone, 0) = some s ∧
      p1 = p.set_scalar_field s.2 := by
  simp only [Vector_Field.eval_scalar_interpolant_at_point, Option.bind_eq_bind,
    Option.bind_eq_some, pure, Option.some.injEq, Prod.mk.injEq] at h
  obtain ⟨K, hK, s, hs, hp1, hm1⟩ := h
  exact ⟨hm1.symm, K, s, hK, hs, hp1.symm⟩

/-- A call of `eval_vector_interpolant_at_point` that returns leaves the object as it
was and returns the point with the three sums, as they stand after the loop,
written to its vector field. -/
theorem eval_vector_returns {α : Type} [Zero α] [Add α] [Mul α] (m m1 : Vector_Field α)
    (p p1 : Point α) (h : m.eval_vector_interpolant_at_point p = some (p1, m1)) :
    m1 = m ∧ ∃ K s, m.kernel = some K ∧
      forLoop m.intern_params.n_planar (m.eval_vector_body p) (K.clone, 0, 0, 0) = some s ∧
      p1 = p.set_vector_field s.2.1 s.2.2.1 s.2.2.2 := by
  simp only [Vector_Field.eval_vector_interpolant_at_point, Option.bind_eq_bind,
    Option.bind_eq_some, pure, Option.some.injEq, Prod.mk.injEq] at h
  obtain ⟨K, hK, s, hs, hp1, hm1⟩ := h
  exact ⟨hm1.symm, K, s, hK, hs, hp1.symm⟩

/-- A loop faults when the body faults at some index below the bound, on every state
that satisfies a property the body keeps. -/
theorem forLoop_fault {σ : Type} (P : σ → Prop) (body : Nat → σ → Option σ)
    (hkeep : ∀ j s s1, P s → body j s = some s1 → P s1) (i : Nat)
    (hfault : ∀ s, P s → body i s = none) :
    ∀ n s, i < n → P s → forLoop n body s = none := by
  intro n
  induction n with
  | zero => intro s hi; omega
  | succ n ih =>
    intro s hi hP
    rw [forLoop_succ]
    by_cases hin : i = n
    · subst hin
      cases hrun : forLoop i body s with
      | none => rfl
      | some s1 =>
        rw [Option.some_bind]
        exact hfault s1 (forLoop_preserves P body hkeep i s s1 hP hrun)
    · rw [ih s (by omega) hP]
      rfl

/-- An assignment that goes through keeps the size of the vector. -/
theorem VectorXd.set_size {α : Type} (v v1 : VectorXd α) (i : Nat) (a : α)
    (h : v.set i a = some v1) : v1.size = v.size := by
  unfold VectorXd.set at h
  split at h
  · simp only [Option.some.injEq] at h
    rw [← h]
  · cases h

/-- A run of the body of the loop of `get_equality_values` that does not fault keeps
the size of the vector. -/
theorem get_equality_values_body_size {α : Type} (m : Vector_Field α) (j : Nat)
    (v v1 : VectorXd α) (h : m.get_equality_values_body j v = some v1) :
    v1.size = v.size := by
  simp only [Vector_Field.get_equality_values_body, Option.bind_eq_bind,
    Option.bind_eq_some] at h
  obtain ⟨c, -, v2, h2, v3, h3, h4⟩ := h
  rw [VectorXd.set_size _ _ _ _ h4, VectorXd.set_size _ _ _ _ h3,
    VectorXd.set_size _ _ _ _ h2]

/-- The body of the loop of `get_equality_values` faults at an index whose first cell
is outside the vector. -/
theorem get_equality_values_body_fault {α : Type} (m : Vector_Field α) (j : Nat)
    (v : VectorXd α) (h : v.size ≤ 3 * j) : m.get_equality_values_body j v = none := by
  have hlt : ¬ (3 * j < v.size) := by omega
  simp only [Vector_Field.get_equality_values_body, Option.bind_eq_bind, VectorXd.set, hlt,
    if_false, Option.none_bind]
  cases m.constraints.planar[j]? <;> rfl

/-- The function `get_equality_values` on a vector of `3 * n` cells returns exactly
when the store holds at most `n` planar constraints. -/
theorem get_equality_values_isSome_iff {α : Type} (m : Vector_Field α) (n : Nat) :
    (m.get_equality_values (VectorXd.alloc (3 * n))).isSome ↔
      m.constraints.planar.length ≤ n := by
  constructor
  · intro h
    by_contra hlt
    have hnone : forLoop m.constraints.planar.length m.get_equality_values_body
        (VectorXd.alloc (3 * n)) = none :=
      forLoop_fault (fun v : VectorXd α => v.size = 3 * n) m.get_equality_values_body
        (fun j s s1 hP hb => (get_equality_values_body_size m j s s1 hb).trans hP)
        n (fun s hP => get_equality_values_body_fault m n s (by rw [hP]))
        m.constraints.planar.length (VectorXd.alloc (3 * n)) (by omega) rfl
    simp [Vector_Field.get_equality_values, hnone] at h
  · intro hle
    obtain ⟨v1, hrun, -⟩ :=
      get_equality_values_loop m (VectorXd.alloc (3 * n)) m.constraints.planar.length
        (le_refl _) (by simp only [VectorXd.alloc]; omega)
    simp [Vector_Field.get_equality_values, hrun]

/-- With the solver set, a run of the body of the loop of
`eval_scalar_interpolant_at_point` returns exactly when the planar constraint `k`
and the weights `3 * k`, `3 * k + 1`, `3 * k + 2` are in range: these are the
indices it reads. -/
theorem eval_scalar_body_isSome_iff {α : Type} [Add α] [Mul α] (m : Vector_Field α)
    (S : Linear_LU_decomposition α) (hsol : m.solver = some S) (p : Point α) (k : Nat)
    (s : Kernel α × α) :
    (m.eval_scalar_body p k s).isSome ↔
      (m.constraints.planar[k]?).isSome ∧ (S.weights[3 * k]?).isSome ∧
        (S.weights[3 * k + 1]?).isSome ∧ (S.weights[3 * k + 2]?).isSome := by
  simp only [Vector_Field.eval_scalar_body, Option.bind_eq_bind, pure, hsol, Option.some_bind]
  rcases hc : m.constraints.planar[k]? with _ | c
  · simp
  rcases hw0 : S.weights[3 * k]? with _ | w0
  · simp
  rcases hw1 : S.weights[3 * k + 1]? with _ | w1
  · simp
  rcases hw2 : S.weights[3 * k + 2]? with _ | w2
  · simp
  simp

/-- With the solver set, a run of the body of the loop of
`eval_vector_interpolant_at_point` returns exactly when the planar constraint `k`
and the weights `3 * k`, `3 * k + 1`, `3 * k + 2` are in range: these are the
indices it reads. -/
theorem eval_vector_body_isSome_iff {α : Type} [Add α] [Mul α] (m : Vector_Field α)
    (S : Linear_LU_decomposition α) (hsol : m.solver = some S) (p : Point α) (k : Nat)
    (s : Kernel α × α × α × α) :
    (m.eval_vector_body p k s).isSome ↔
      (m.constraints.planar[k]?).isSome ∧ (S.weights[3 * k]?).isSome ∧
        (S.weights[3 * k + 1]?).isSome ∧ (S.weights[3 * k + 2]?).isSome := by
  simp only [Vector_Field.eval_vector_body, Option.bind_eq_bind, pure, hsol, Option.some_bind]
  rcases hc : m.constraints.planar[k]? with _ | c
  · simp
  rcases hw0 : S.weights[3 * k]? with _ | w0
  · simp
  rcases hw1 : S.weights[3 * k + 1]? with _ | w1
  · simp
  rcases hw2 : S.weights[3 * k + 2]? with _ | w2
  · simp
  simp

/-- A sum over the indices `i` below `3 * n` of a weight `w i` times a term given by
the offset `i % 3` and the block `i / 3`, regrouped in blocks of three. -/
theorem sum_range_three_mul_weights {α : Type} [AddCommMonoid α] [Mul α] (w : Nat → α)
    (g : Nat → Nat → α) (n : Nat) :
    ∑ i in Finset.range (3 * n), w i * g (i % 3) (i / 3) =
      ∑ k in Finset.range n, ∑ s in Finset.range 3, w (3 * k + s) * g s k := by
  rw [sum_range_three_mul]
  refine Finset.sum_congr rfl (fun k _ => Finset.sum_congr rfl (fun s hs => ?_))
  have hs3 : s < 3 := Finset.mem_range.mp hs
  have e1 : (3 * k + s) % 3 = s := by omega
  have e2 : (3 * k + s) / 3 = k := by omega
  rw [e1, e2]

/-! ## The claims -/

/-- C1: after `get_method_parameters`, `get_equality_values` on the vector that
`setup_system_solver` allocates (dimension `n_equality + n_poly_terms`) does not
fault and returns `true`; the vector has exactly `3 * n` cells, `n` the number of
planar constraints, and the cells `3 * j`, `3 * j + 1`, `3 * j + 2` hold `nx`, `ny`,
`nz` of the `j`-th planar constraint. -/
theorem C1_equality_values {α : Type} (m : Vector_Field α) :
    ∃ v m1,
      m.get_method_parameters.get_equality_values
          (VectorXd.alloc (m.get_method_parameters.intern_params.n_equality +
            m.get_method_parameters.intern_params.n_poly_terms)) = some (true, v, m1) ∧
      v.size = 3 * m.constraints.planar.length ∧
      ∀ j c, m.constraints.planar[j]? = some c →
        v.coeff (3 * j) = some c.nx ∧ v.coeff (3 * j + 1) = some c.ny ∧
        v.coeff (3 * j + 2) = some c.nz := by
  obtain ⟨v1, hrun, hsize, hval, -⟩ :=
    get_equality_values_loop m.get_method_parameters
      (VectorXd.alloc (m.get_method_parameters.intern_params.n_equality +
            m.get_method_parameters.intern_params.n_poly_terms))
      m.constraints.planar.length (le_refl _)
      (by simp [Vector_Field.get_method_parameters, VectorXd.alloc])
  refine ⟨v1, m.get_method_parameters, ?_, ?_, ?_⟩
  · simp only [Vector_Field.get_equality_values, Option.bind_eq_bind, pure]
    have hc : m.get_method_parameters.constraints = m.constraints := rfl
    rw [hc, hrun]
    rfl
  · rw [hsize]
    simp [Vector_Field.get_method_parameters, VectorXd.alloc]
  · intro j c hc
    have hj : j < m.constraints.planar.length := by
      by_contra hge
      rw [List.getElem?_eq_none (by omega)] at hc
      cases hc
    exact hval j c hj hc

/-- C1, the scenario of the spec: the normals `(1,0,0)` and `(0,1,0)` give the
right-hand side `[1,0,0,0,1,0]`. -/
theorem C1_equality_values_scenario :
    (scenarioField.get_method_parameters.get_equality_values (VectorXd.alloc 6)).map
        (fun r => (r.1, r.2.1.toList)) =
      some (true, [some 1, some 0, some 0, some 0, some 1, some 0]) := by
  decide

/-- C2: on an object whose kernel is set and whose cached planar count is the
number `n` of planar constraints, `get_interpolation_matrix` on a freshly
allocated `3 * n` by `3 * n` matrix does not fault and returns `true`; every cell
`(r, c)` with `r, c < 3 * n` is assigned, and holds the second mixed derivative of
the kernel for the axes of `r % 3` (first) and `c % 3` (second) on the pair of the
planar constraints `r / 3` and `c / 3`. -/
theorem C2_interpolation_matrix_cells {α : Type} (m : Vector_Field α) (K : Kernel α)
    (hker : m.kernel = some K)
    (hnp : m.intern_params.n_planar = m.constraints.planar.length) :
    ∃ A m1,
      m.get_interpolation_matrix
          (MatrixXd.alloc (3 * m.constraints.planar.length)
            (3 * m.constraints.planar.length)) = some (true, A, m1) ∧
      A.rows = 3 * m.constraints.planar.length ∧
      A.cols = 3 * m.constraints.planar.length ∧
      ∀ r c, r < 3 * m.constraints.planar.length → c < 3 * m.constraints.planar.length →
        ∃ pr pc, m.constraints.planar[r / 3]? = some pr ∧
          m.constraints.planar[c / 3]? = some pc ∧
          A.coeff r c = some (K.second_derivative
            (SecondDerivatives.ofAxes (Axis.ofOffset (r % 3)) (Axis.ofOffset (c % 3)))
            pr.toPoint pc.toPoint) := by
  obtain ⟨a, b, A1, hrun, hrows, hcols, hval⟩ :=
    get_interpolation_matrix_spec K m
      (MatrixXd.alloc (3 * m.constraints.planar.length) (3 * m.constraints.planar.length))
      hker (by omega) (by simp [MatrixXd.alloc, hnp]) (by simp [MatrixXd.alloc, hnp])
  refine ⟨A1, _, hrun, hrows, hcols, ?_⟩
  intro r c hr hc
  have hr3 : r / 3 < m.constraints.planar.length := by omega
  have hc3 : c / 3 < m.constraints.planar.length := by omega
  refine ⟨m.constraints.planar[r / 3], m.constraints.planar[c / 3],
    List.getElem?_eq_getElem hr3, List.getElem?_eq_getElem hc3, ?_⟩
  rw [hval, hnp, if_pos ⟨hr3, hc3⟩]
  simp [planar_planar_entry, List.getElem?_eq_getElem hr3, List.getElem?_eq_getElem hc3]

/-- C2, the scenario: the 6 by 6 matrix is assembled, and its cell `(0, 3)` holds the
derivative for the axes `x`, `x` on the first and the second constraint. -/
theorem C2_interpolation_matrix_cells_scenario :
    ∃ A m1,
      scenarioField.get_method_parameters.get_interpolation_matrix (MatrixXd.alloc 6 6) =
        some (true, A, m1) ∧ A.rows = 6 ∧ A.cols = 6 ∧ A.coeff 0 3 = some (-1) := by
  obtain ⟨A, m1, hrun, hrows, hcols, hcell⟩ :=
    C2_interpolation_matrix_cells scenarioField.get_method_parameters scenarioKernel rfl rfl
  refine ⟨A, m1, hrun, hrows, hcols, ?_⟩
  obtain ⟨pr, pc, hpr, hpc, hv⟩ := hcell 0 3 (by decide) (by decide)
  cases hpr
  cases hpc
  rw [hv]
  decide

/-- C3: for a kernel that satisfies the symmetry contract (the derivative for the
axes `i`, `j` on `(a, b)` is the derivative for `j`, `i` on `(b, a)`) and any list
of planar constraints, repeated positions included, the matrix assembled by
`get_interpolation_matrix` on a `3 * n` by `3 * n` matrix is symmetric: the cells
`(r, c)` and `(c, r)` are both assigned and equal for all `r, c < 3 * n`. -/
theorem C3_interpolation_matrix_symmetric {α : Type} (m : Vector_Field α) (K : Kernel α)
    (hker : m.kernel = some K)
    (hnp : m.intern_params.n_planar = m.constraints.planar.length)
    (hsym : ∀ (i j : Axis) (a b : Point α),
      K.second_derivative (SecondDerivatives.ofAxes i j) a b =
        K.second_derivative (SecondDerivatives.ofAxes j i) b a) :
    ∃ A m1,
      m.get_interpolation_matrix
          (MatrixXd.alloc (3 * m.constraints.planar.length)
            (3 * m.constraints.planar.length)) = some (true, A, m1) ∧
      A.rows = 3 * m.constraints.planar.length ∧
      A.cols = 3 * m.constraints.planar.length ∧
      ∀ r c, r < 3 * m.constraints.planar.length → c < 3 * m.constraints.planar.length →
        (A.coeff r c).isSome ∧ A.coeff r c = A.coeff c r := by
  obtain ⟨a, b, A1, hrun, hrows, hcols, hval⟩ :=
    get_interpolation_matrix_spec K m
      (MatrixXd.alloc (3 * m.constraints.planar.length) (3 * m.constraints.planar.length))
      hker (by omega) (by simp [MatrixXd.alloc, hnp]) (by simp [MatrixXd.alloc, hnp])
  refine ⟨A1, _, hrun, hrows, hcols, ?_⟩
  intro r c hr hc
  have hr3 : r / 3 < m.constraints.planar.length := by omega
  have hc3 : c / 3 < m.constraints.planar.length := by omega
  rw [hval r c, hval c r, hnp, if_pos ⟨hr3, hc3⟩, if_pos ⟨hc3, hr3⟩]
  simp only [planar_planar_entry, List.getElem?_eq_getElem hr3, List.getElem?_eq_getElem hc3,
    Option.isSome_some, true_and]
  rw [hsym]

/-- C3, the scenario: the 6 by 6 matrix of the two constraints is symmetric. -/
theorem C3_interpolation_matrix_symmetric_scenario :
    ∃ A m1,
      scenarioField.get_method_parameters.get_interpolation_matrix (MatrixXd.alloc 6 6) =
        some (true, A, m1) ∧ A.rows = 6 ∧ A.cols = 6 ∧
      ∀ r c, r < 6 → c < 6 → (A.coeff r c).isSome ∧ A.coeff r c = A.coeff c r :=
  C3_interpolation_matrix_symmetric scenarioField.get_method_parameters scenarioKernel rfl rfl
    scenarioKernel_symmetric

/-- C4: interpolation property of the vector field.  For an object whose kernel is set
and depends only on positions, whose cached planar count is the number `n` of
planar constraints, and whose solver holds weights `w` with `A * w = b` exactly
(`A` from `get_interpolation_matrix`, `b` from `get_equality_values`, at dimension
`3 * n`), `eval_vector_interpolant_at_point` on a point at the position of the planar
constraint `j` does not fault and writes exactly `(nx, ny, nz)` of that constraint,
which are the rows `3 * j`, `3 * j + 1`, `3 * j + 2` of `A * w`. -/
theorem C4_interpolation_property {α : Type} [CommSemiring α] (m : Vector_Field α)
    (K : Kernel α) (S : Linear_LU_decomposition α) (A : MatrixXd α) (b : VectorXd α)
    (m1 m2 : Vector_Field α) (j : Nat) (c : Planar α) (p : Point α)
    (hker : m.kernel = some K) (hsol : m.solver = some S)
    (hnp : m.intern_params.n_planar = m.constraints.planar.length)
    (hpos : K.dependsOnPositionsOnly)
    (hA : m.get_interpolation_matrix
        (MatrixXd.alloc (3 * m.constraints.planar.length)
          (3 * m.constraints.planar.length)) = some (true, A, m1))
    (hb : m.get_equality_values (VectorXd.alloc (3 * m.constraints.planar.length)) =
        some (true, b, m2))
    (hAw : A.solves S.weights b)
    (hc : m.constraints.planar[j]? = some c) (hp : p.samePosition c.toPoint) :
    m.eval_vector_interpolant_at_point p = some (p.set_vector_field c.nx c.ny c.nz, m) ∧
      A.mulVec_row S.weights (3 * j) = some c.nx ∧
      A.mulVec_row S.weights (3 * j + 1) = some c.ny ∧
      A.mulVec_row S.weights (3 * j + 2) = some c.nz := by
  have hj : j < m.constraints.planar.length := by
    by_contra hge
    rw [List.getElem?_eq_none (by omega)] at hc
    cases hc
  -- the assembled matrix
  obtain ⟨a0, b0, A1, hrun, hrows, hcols, hval⟩ :=
    get_interpolation_matrix_spec K m
      (MatrixXd.alloc (3 * m.constraints.planar.length) (3 * m.constraints.planar.length))
      hker (by omega) (by simp [MatrixXd.alloc, hnp]) (by simp [MatrixXd.alloc, hnp])
  rw [hrun] at hA
  have hAeq : A1 = A := by
    simp only [Option.some.injEq, Prod.mk.injEq, true_and] at hA
    exact hA.1
  subst hAeq
  have hrows1 : A1.rows = 3 * m.constraints.planar.length := hrows
  have hcols1 : A1.cols = 3 * m.constraints.planar.length := hcols
  -- the right-hand side
  obtain ⟨v1, hrunb, -, hvalb, -⟩ :=
    get_equality_values_loop m (VectorXd.alloc (3 * m.constraints.planar.length))
      m.constraints.planar.length (le_refl _) (by simp [VectorXd.alloc])
  have hbeq : v1 = b := by
    simp only [Vector_Field.get_equality_values, hrunb, Option.some_bind, Option.bind_eq_bind,
      pure, Option.some.injEq, Prod.mk.injEq, true_and] at hb
    exact hb.1
  subst hbeq
  obtain ⟨hbx, hby, hbz⟩ := hvalb j c hj hc
  -- the weights and the constraints as functions of the index
  obtain ⟨-, hwlen, hsolve⟩ := hAw
  rw [hcols1] at hwlen
  have hwf : ∀ i, i < 3 * m.constraints.planar.length →
      S.weights[i]? = some (S.weights.getD i 0) := by
    intro i hi
    have hi2 : i < S.weights.length := by omega
    simp [List.getD, List.getElem?_eq_getElem hi2]
  have hpf : ∀ k, k < m.constraints.planar.length →
      m.constraints.planar[k]? = some (m.constraints.planar.getD k c) := by
    intro k hk
    simp [List.getD, List.getElem?_eq_getElem hk]
  have hpfj : m.constraints.planar.getD j c = c := by
    simp [List.getD, hc]
  -- the rows of the product
  have hrow : ∀ d, d < 3 →
      A1.mulVec_row S.weights (3 * j + d) =
        some (∑ k in Finset.range m.constraints.planar.length, ∑ s in Finset.range 3,
          S.weights.getD (3 * k + s) 0 *
            K.second_derivative
              (SecondDerivatives.ofAxes (Axis.ofOffset d) (Axis.ofOffset s)) p
              (m.constraints.planar.getD k c).toPoint) := by
    intro d hd
    rw [MatrixXd.mulVec_row_eq A1 S.weights (3 * j + d)
      (fun cc => K.second_derivative
        (SecondDerivatives.ofAxes (Axis.ofOffset d) (Axis.ofOffset (cc % 3))) c.toPoint
        (m.constraints.planar.getD (cc / 3) c).toPoint)
      (fun i => S.weights.getD i 0)]
    · rw [hcols1, sum_range_three_mul]
      congr 1
      refine Finset.sum_congr rfl (fun k _ => Finset.sum_congr rfl (fun s hs => ?_))
      have hs3 : s < 3 := Finset.mem_range.mp hs
      have e1 : (3 * k + s) % 3 = s := by omega
      have e2 : (3 * k + s) / 3 = k := by omega
      simp only [e1, e2]
      rw [mul_comm]
      congr 1
      exact (hpos.1 _ p c.toPoint _ _ hp ⟨rfl, rfl, rfl⟩).symm
    · intro cc hcc
      rw [hcols1] at hcc
      have h1 : (3 * j + d) / 3 = j := by omega
      have h2 : (3 * j + d) % 3 = d := by omega
      have h3 : cc / 3 < m.constraints.planar.length := by omega
      rw [hval, hnp, if_pos ⟨by omega, h3⟩]
      simp only [planar_planar_entry, h1, h2, hc, hpf _ h3]
    · intro cc hcc
      rw [hcols1] at hcc
      exact hwf cc hcc
  have hsx := (hsolve (3 * j) (by omega)).2
  have hsy := (hsolve (3 * j + 1) (by omega)).2
  have hsz := (hsolve (3 * j + 2) (by omega)).2
  rw [hbx] at hsx
  rw [hby] at hsy
  rw [hbz] at hsz
  refine ⟨?_, hsx, hsy, hsz⟩
  -- the evaluation
  have hx := hrow 0 (by omega)
  have hy := hrow 1 (by omega)
  have hz := hrow 2 (by omega)
  rw [add_zero, hsx] at hx
  rw [hsy] at hy
  rw [hsz] at hz
  obtain ⟨a1, b1, hloop⟩ :=
    eval_vector_loop m K S p hsol (fun i => S.weights.getD i 0)
      (fun k => m.constraints.planar.getD k c) m.constraints.planar.length
      hwf hpf K.p1 K.p2 0 0 0
  have hK : K.clone = K.set_points K.p1 K.p2 := rfl
  simp only [Vector_Field.eval_vector_interpolant_at_point, hker, Option.some_bind,
    Option.bind_eq_bind, hK, hnp, hloop, pure, zero_add]
  simp only [Option.some.injEq] at hx hy hz
  have ex : Axis.ofOffset 0 = Axis.x := rfl
  have ey : Axis.ofOffset 1 = Axis.y := rfl
  have ez : Axis.ofOffset 2 = Axis.z := rfl
  rw [ex] at hx
  rw [ey] at hy
  rw [ez] at hz
  rw [← hx, ← hy, ← hz]

/-- C4, the scenario: with the weights `[0, 1, 0, -1, 0, 0]`, which solve the system of
the two constraints, the vector field at the position of the second constraint
is its normal `(0, 1, 0)`. -/
theorem C4_interpolation_property_scenario :
    scenarioSolved.eval_vector_interpolant_at_point (scenarioPoint 1 0 0) =
      some ((scenarioPoint 1 0 0).set_vector_field 0 1 0, scenarioSolved) :=
  (C4_interpolation_property scenarioSolved _ _ _ _ _ _ 1
    { toPoint := scenarioPoint 1 0 0, nx := 0, ny := 1, nz := 0 } (scenarioPoint 1 0 0)
    rfl rfl (by decide) (scenarioKernel_positions _ _) rfl rfl (by decide) rfl
    ⟨rfl, rfl, rfl⟩).1

/-- C5: when the kernel and the solver are set, the weights `w i`, `i < 3 * n_planar`,
and the planar constraints `planar k`, `k < n_planar`, are in range,
`eval_vector_interpolant_at_point` does not fault, leaves the object as it was and
writes onto `p` the vector whose component for the output axis `d` is the sum over
`k < n_planar` and the source offsets `s < 3` of `w (3 * k + s)` times the second
mixed derivative for `d` and the axis of `s`, on the pair `(p, planar k)`. -/
theorem C5_eval_vector {α : Type} [AddCommMonoid α] [Mul α] (m : Vector_Field α)
    (K : Kernel α) (S : Linear_LU_decomposition α) (p : Point α)
    (hker : m.kernel = some K) (hsol : m.solver = some S)
    (w : Nat → α) (planar : Nat → Planar α)
    (hw : ∀ i, i < 3 * m.intern_params.n_planar → S.weights[i]? = some (w i))
    (hp : ∀ k, k < m.intern_params.n_planar → m.constraints.planar[k]? = some (planar k)) :
    m.eval_vector_interpolant_at_point p =
      some (p.set_vector_field
        (∑ k in Finset.range m.intern_params.n_planar, ∑ s in Finset.range 3,
          w (3 * k + s) *
            K.second_derivative (SecondDerivatives.ofAxes Axis.x (Axis.ofOffset s)) p
              (planar k).toPoint)
        (∑ k in Finset.range m.intern_params.n_planar, ∑ s in Finset.range 3,
          w (3 * k + s) *
            K.second_derivative (SecondDerivatives.ofAxes Axis.y (Axis.ofOffset s)) p
              (planar k).toPoint)
        (∑ k in Finset.range m.intern_params.n_planar, ∑ s in Finset.range 3,
          w (3 * k + s) *
            K.second_derivative (SecondDerivatives.ofAxes Axis.z (Axis.ofOffset s)) p
              (planar k).toPoint), m) := by
  obtain ⟨a1, b1, hrun⟩ :=
    eval_vector_loop m K S p hsol w planar m.intern_params.n_planar hw hp K.p1 K.p2 0 0 0
  have hK : K.clone = K.set_points K.p1 K.p2 := rfl
  simp only [Vector_Field.eval_vector_interpolant_at_point, hker, Option.some_bind,
    Option.bind_eq_bind, hK, hrun, pure, zero_add]

/-- C5, the scenario: at the position of the second constraint the solved method
writes the vector `(0, 1, 0)`. -/
theorem C5_eval_vector_scenario :
    (scenarioSolved.eval_vector_interpolant_at_point (scenarioPoint 1 0 0)).map
        (fun r => r.1.vector_field) = some (some (0, 1, 0)) := by
  rw [C5_eval_vector scenarioSolved _ _ (scenarioPoint 1 0 0) rfl rfl
    (fun i => scenarioWeights.getD i 0)
    (fun k => scenarioPlanar.getD k { toPoint := scenarioPoint 0 0 0, nx := 0, ny := 0, nz := 0 })
    (by decide) (by decide)]
  decide

/-- C6: when the kernel and the solver are set, the weights `w i`, `i < 3 * n_planar`,
and the planar constraints `planar k`, `k < n_planar`, are in range,
`eval_scalar_interpolant_at_point` does not fault, leaves the object as it was and
writes onto `p` the scalar that is the sum over `k < n_planar` and the offsets
`s < 3` of `w (3 * k + s)` times the first derivative along the axis of `s`
(`basis_pt_planar_x`, `_y`, `_z`), between `p` and `planar k`: one first derivative
for each weight, no second mixed derivative. -/
theorem C6_eval_scalar {α : Type} [AddCommMonoid α] [Mul α] (m : Vector_Field α)
    (K : Kernel α) (S : Linear_LU_decomposition α) (p : Point α)
    (hker : m.kernel = some K) (hsol : m.solver = some S)
    (w : Nat → α) (planar : Nat → Planar α)
    (hw : ∀ i, i < 3 * m.intern_params.n_planar → S.weights[i]? = some (w i))
    (hp : ∀ k, k < m.intern_params.n_planar → m.constraints.planar[k]? = some (planar k)) :
    m.eval_scalar_interpolant_at_point p =
      some (p.set_scalar_field
        (∑ k in Finset.range m.intern_params.n_planar, ∑ s in Finset.range 3,
          w (3 * k + s) * K.first_derivative (Axis.ofOffset s) p (planar k).toPoint), m) := by
  obtain ⟨a1, b1, hrun⟩ :=
    eval_scalar_loop m K S p hsol w planar m.intern_params.n_planar hw hp K.p1 K.p2 0
  have hK : K.clone = K.set_points K.p1 K.p2 := rfl
  simp only [Vector_Field.eval_scalar_interpolant_at_point, hker, Option.some_bind,
    Option.bind_eq_bind, hK, hrun, pure, zero_add]

/-- C6, the scenario: at the position of the second constraint the solved method
writes the scalar `0`. -/
theorem C6_eval_scalar_scenario :
    (scenarioSolved.eval_scalar_interpolant_at_point (scenarioPoint 1 0 0)).map
        (fun r => r.1.scalar_field) = some (some 0) := by
  rw [C6_eval_scalar scenarioSolved _ _ (scenarioPoint 1 0 0) rfl rfl
    (fun i => scenarioWeights.getD i 0)
    (fun k => scenarioPlanar.getD k { toPoint := scenarioPoint 0 0 0, nx := 0, ny := 0, nz := 0 })
    (by decide) (by decide)]
  decide

/-- C7: `get_method_parameters` is a total function of the object; afterwards
`n_equality = n_interface + 3 * n_planar + n_tangent`, `n_planar` is the number of
planar constraints of the store, the dimension `n_equality + n_poly_terms` used by
`setup_system_solver` is `3 *` that number, `n_poly_terms = 0`, `poly_term` is
false and the problem type is `Linear`; the store is not changed. -/
theorem C7_method_parameters {α : Type} (m : Vector_Field α) :
    m.get_method_parameters.intern_params.n_equality =
        m.get_method_parameters.intern_params.n_interface +
          3 * m.get_method_parameters.intern_params.n_planar +
          m.get_method_parameters.intern_params.n_tangent ∧
      m.get_method_parameters.intern_params.n_planar = m.constraints.planar.length ∧
      m.get_method_parameters.intern_params.n_equality +
          m.get_method_parameters.intern_params.n_poly_terms =
        3 * m.constraints.planar.length ∧
      m.get_method_parameters.intern_params.n_poly_terms = 0 ∧
      m.get_method_parameters.intern_params.poly_term = false ∧
      m.get_method_parameters.intern_params.problem_type = ProblemType.Linear ∧
      m.get_method_parameters.constraints = m.constraints := by
  refine ⟨rfl, rfl, ?_, rfl, rfl, rfl, rfl⟩
  show 0 + 3 * m.constraints.planar.length + 0 + 0 = 3 * m.constraints.planar.length
  omega

/-- C7, the scenario: the two planar constraints give the dimension 6. -/
theorem C7_method_parameters_scenario :
    scenarioField.get_method_parameters.intern_params =
      { n_interface := 0, n_inequality := 0, n_planar := 2, n_tangent := 0,
        n_constraints := 6, n_equality := 6, poly_term := false, modified_basis := false,
        problem_type := ProblemType.Linear, n_poly_terms := 0 } := by
  decide

/-- C8: `setup_system_solver` throws `linear_solver_failure` exactly when the
assembly of the right-hand side `b` and of the matrix `A` at dimension
`n_equality + n_poly_terms` goes through and `solve` on the solver constructed from
`(A, b)` returns `false`; and whenever it throws, the `solver` member is the one
held before the call: the solver constructed in the call is not stored. -/
theorem C8_solver_failure {α : Type}
    (solve : Linear_LU_decomposition α → Bool × Linear_LU_decomposition α)
    (m : Vector_Field α) :
    ((∃ m1, m.setup_system_solver solve =
        Outcome.thrown GRBF_Exceptions.linear_solver_failure m1) ↔
      ∃ flag b m2 A m1,
        m.get_equality_values
          (VectorXd.alloc (m.intern_params.n_equality + m.intern_params.n_poly_terms)) =
            some (flag, b, m2) ∧
        m2.get_interpolation_matrix
          (MatrixXd.alloc (m.intern_params.n_equality + m.intern_params.n_poly_terms)
            (m.intern_params.n_equality + m.intern_params.n_poly_terms)) =
            some (true, A, m1) ∧
        (solve (Linear_LU_decomposition.new A b)).1 = false) ∧
    (∀ e m1, m.setup_system_solver solve = Outcome.thrown e m1 → m1.solver = m.solver) := by
  cases hb : m.get_equality_values
      (VectorXd.alloc (m.intern_params.n_equality + m.intern_params.n_poly_terms)) with
  | none => simp [Vector_Field.setup_system_solver, hb]
  | some rb =>
    obtain ⟨flag, b, m2⟩ := rb
    obtain ⟨-, hm2⟩ := get_equality_values_frame m m2 _ b flag hb
    subst hm2
    cases hA : m2.get_interpolation_matrix
        (MatrixXd.alloc (m2.intern_params.n_equality + m2.intern_params.n_poly_terms)
          (m2.intern_params.n_equality + m2.intern_params.n_poly_terms)) with
    | none => simp [Vector_Field.setup_system_solver, hb, hA]
    | some rA =>
      obtain ⟨fl, A, m1⟩ := rA
      obtain ⟨hfl, hframe⟩ := get_interpolation_matrix_frame m2 m1 _ A fl hA
      subst hfl
      have hsolver : m1.solver = m2.solver := hframe.2.2.1
      cases hs : solve (Linear_LU_decomposition.new A b) with
      | mk ok llu =>
        cases ok
        · refine ⟨⟨fun _ => ⟨flag, b, m2, A, m1, rfl, hA, by rw [hs]⟩, fun _ => ⟨m1, ?_⟩⟩, ?_⟩
          · simp [Vector_Field.setup_system_solver, hb, hA, hs]
          · intro e m3 h
            simp only [Vector_Field.setup_system_solver, hb, hA, hs, Outcome.thrown.injEq] at h
            rw [← h.2, hsolver]
        · refine ⟨⟨fun h => ?_, fun h => ?_⟩, ?_⟩
          · obtain ⟨m3, h⟩ := h
            simp [Vector_Field.setup_system_solver, hb, hA, hs] at h
          · obtain ⟨flag1, b1, m3, A1, m4, hb1, hA1, hs1⟩ := h
            simp only [Option.some.injEq, Prod.mk.injEq] at hb1
            obtain ⟨-, hb2, hm3⟩ := hb1
            subst hb2
            subst hm3
            rw [hA] at hA1
            simp only [Option.some.injEq, Prod.mk.injEq, true_and] at hA1
            rw [← hA1.1, hs] at hs1
            cases hs1
          · intro e m3 h
            simp [Vector_Field.setup_system_solver, hb, hA, hs] at h

/-- C8, the scenario: on the reduced store the system is singular, `solve` fails,
`setup_system_solver` throws `linear_solver_failure` and the solver of the earlier
solve is still the one stored. -/
theorem C8_solver_failure_scenario :
    (scenarioReduced.setup_system_solver scenarioSolve).exception? =
        some GRBF_Exceptions.linear_solver_failure ∧
      ((scenarioReduced.setup_system_solver scenarioSolve).state?.bind
        (fun m => m.solver)).map (fun s => s.weights) = some scenarioWeights := by
  decide

/-- C9, as stated, fails on the code: the method that holds the weights of an earlier
solve and whose store was then reduced throws `linear_solver_failure` in
`setup_system_solver`, still holds the earlier weights afterwards, and the later
evaluations at `(0, 1, 0)` return: the vector `(0, -1, 0)` and the scalar `2`, both
computed from the earlier weights. -/
theorem C9_stale_weights_counterexample :
    (scenarioReduced.setup_system_solver scenarioSolve).exception? =
        some GRBF_Exceptions.linear_solver_failure ∧
      ((scenarioReduced.setup_system_solver scenarioSolve).state?.bind
        (fun m => m.solver)).map (fun s => s.weights) = some scenarioWeights ∧
      ((scenarioReduced.setup_system_solver scenarioSolve).state?.bind
        (fun m => m.eval_vector_interpolant_at_point (scenarioPoint 0 1 0))).map
          (fun r => r.1.vector_field) = some (some (0, -1, 0)) ∧
      ((scenarioReduced.setup_system_solver scenarioSolve).state?.bind
        (fun m => m.eval_scalar_interpolant_at_point (scenarioPoint 0 1 0))).map
          (fun r => r.1.scalar_field) = some (some 2) := by
  decide

/-- C9, amended: when `setup_system_solver` throws `linear_solver_failure`, the
`solver` member is the one held before the call (none when there was none, the
solver of the earlier solve when there was one), and a later call of
`eval_scalar_interpolant_at_point` or `eval_vector_interpolant_at_point` ends as the
same call before the failed `setup_system_solver` would have: it faults when that
one faults and writes the same point, computed from the earlier weights, when
that one returns. -/
theorem C9_failure_keeps_previous_weights {α : Type} [Zero α] [Add α] [Mul α]
    (solve : Linear_LU_decomposition α → Bool × Linear_LU_decomposition α)
    (m m1 : Vector_Field α)
    (h : m.setup_system_solver solve =
      Outcome.thrown GRBF_Exceptions.linear_solver_failure m1) (p : Point α) :
    m1.solver = m.solver ∧
      (m1.eval_scalar_interpolant_at_point p).map Prod.fst =
        (m.eval_scalar_interpolant_at_point p).map Prod.fst ∧
      (m1.eval_vector_interpolant_at_point p).map Prod.fst =
        (m.eval_vector_interpolant_at_point p).map Prod.fst := by
  have hframe := setup_system_solver_thrown_frame solve m m1 _ h
  exact ⟨hframe.2.2.1, eval_scalar_congr m m1 hframe p, eval_vector_congr m m1 hframe p⟩

/-- C9, amended, on the reduced scenario: after the failed call the solver is the
earlier one and the vector evaluation at `(0, 1, 0)` ends as before the call. -/
theorem C9_failure_keeps_previous_weights_scenario :
    ∃ m1, scenarioReduced.setup_system_solver scenarioSolve =
        Outcome.thrown GRBF_Exceptions.linear_solver_failure m1 ∧
      m1.solver = scenarioReduced.solver ∧
      (m1.eval_vector_interpolant_at_point (scenarioPoint 0 1 0)).map Prod.fst =
        (scenarioReduced.eval_vector_interpolant_at_point (scenarioPoint 0 1 0)).map Prod.fst :=
  ⟨_, rfl,
    (C9_failure_keeps_previous_weights scenarioSolve scenarioReduced _ rfl
      (scenarioPoint 0 1 0)).1,
    (C9_failure_keeps_previous_weights scenarioSolve scenarioReduced _ rfl
      (scenarioPoint 0 1 0)).2.2⟩

/-- C10: when `setup_system_solver` returns, the `solver` member is the solver object
constructed from exactly the pair `(A, b)`, `b` the result of `get_equality_values`
and `A` the result of `get_interpolation_matrix` at dimension
`n_equality + n_poly_terms`, after its `solve` returned `true`; and the call made
with any other content `x` of the `solver` member returns too and stores the same
solver: the result does not depend on the solver held before the call. -/
theorem C10_solver_replaced {α : Type}
    (solve : Linear_LU_decomposition α → Bool × Linear_LU_decomposition α)
    (m m' : Vector_Field α) (h : m.setup_system_solver solve = Outcome.ok m') :
    (∃ flag b m2 A m1 llu,
        m.get_equality_values
          (VectorXd.alloc (m.intern_params.n_equality + m.intern_params.n_poly_terms)) =
            some (flag, b, m2) ∧
        m2.get_interpolation_matrix
          (MatrixXd.alloc (m.intern_params.n_equality + m.intern_params.n_poly_terms)
            (m.intern_params.n_equality + m.intern_params.n_poly_terms)) =
            some (true, A, m1) ∧
        solve (Linear_LU_decomposition.new A b) = (true, llu) ∧
        m' = { m1 with solver := some llu }) ∧
    (∀ x, ∃ m'', Vector_Field.setup_system_solver solve { m with solver := x } =
        Outcome.ok m'' ∧ m''.solver = m'.solver) := by
  cases hb : m.get_equality_values
      (VectorXd.alloc (m.intern_params.n_equality + m.intern_params.n_poly_terms)) with
  | none => simp [Vector_Field.setup_system_solver, hb] at h
  | some rb =>
    obtain ⟨flag, b, m2⟩ := rb
    obtain ⟨-, hm2⟩ := get_equality_values_frame m m2 _ b flag hb
    subst hm2
    cases hA : m2.get_interpolation_matrix
        (MatrixXd.alloc (m2.intern_params.n_equality + m2.intern_params.n_poly_terms)
          (m2.intern_params.n_equality + m2.intern_params.n_poly_terms)) with
    | none => simp [Vector_Field.setup_system_solver, hb, hA] at h
    | some rA =>
      obtain ⟨fl, A, m1⟩ := rA
      obtain ⟨hfl, -⟩ := get_interpolation_matrix_frame m2 m1 _ A fl hA
      subst hfl
      cases hs : solve (Linear_LU_decomposition.new A b) with
      | mk ok llu =>
        cases ok
        · simp [Vector_Field.setup_system_solver, hb, hA, hs] at h
        · simp only [Vector_Field.setup_system_solver, hb, hA, hs, Outcome.ok.injEq] at h
          subst h
          refine ⟨⟨flag, b, m2, A, m1, llu, rfl, hA, hs, rfl⟩, ?_⟩
          intro x
          refine ⟨{ m1 with solver := some llu }, ?_, rfl⟩
          have hb2 := get_equality_values_solver m2 x
            (VectorXd.alloc (m2.intern_params.n_equality + m2.intern_params.n_poly_terms))
          have hA2 := get_interpolation_matrix_solver m2 x
            (MatrixXd.alloc (m2.intern_params.n_equality + m2.intern_params.n_poly_terms)
              (m2.intern_params.n_equality + m2.intern_params.n_poly_terms))
          rw [hb] at hb2
          rw [hA] at hA2
          simp only [Option.map_some'] at hb2 hA2
          simp only [Vector_Field.setup_system_solver, hb2, hA2, hs]

/-- C10, the scenario: a second `setup_system_solver` on the solved method stores the
weights of the system again, and so does the same call on the method with its
solver taken away. -/
theorem C10_solver_replaced_scenario :
    ∃ m2, Vector_Field.setup_system_solver scenarioSolve { scenarioSolved with solver := none } =
        Outcome.ok m2 ∧ m2.solver.map (fun s => s.weights) = some scenarioWeights := by
  obtain ⟨m2, h1, h2⟩ :=
    (C10_solver_replaced scenarioSolve scenarioSolved scenarioSolved (by rfl)).2 none
  exact ⟨m2, h1, by rw [h2]; decide⟩

/-- C11, as stated, fails on the code: on the store of the scenario with an inequality
constraint added, `get_method_parameters` returns, with the problem type `Linear`
and `n_inequality = 0`, and the `setup_system_solver` that follows assembles the
system, solves it and stores the weights; nothing is thrown. -/
theorem C11_no_configuration_error_counterexample :
    scenarioWithInequality.constraints.inequality.length = 1 ∧
      scenarioWithInequality.get_method_parameters.intern_params.problem_type =
        ProblemType.Linear ∧
      scenarioWithInequality.get_method_parameters.intern_params.n_inequality = 0 ∧
      (scenarioWithInequality.get_method_parameters.setup_system_solver
        scenarioSolve).exception? = none ∧
      ((scenarioWithInequality.get_method_parameters.setup_system_solver
        scenarioSolve).state?.bind (fun m => m.solver)).map (fun s => s.weights) =
          some scenarioWeights := by
  decide

/-- C11, amended: `get_method_parameters` does not fail and does not look at the
inequality constraints.  For every store and every inequality collection put in
it, the call returns, keeps the collection in the store, sets `n_inequality = 0`
and the problem type `Linear`, and computes the parameters of the store without
the collection; the `setup_system_solver` that follows ends as on the store
without the collection. -/
theorem C11_inequality_ignored {α : Type}
    (solve : Linear_LU_decomposition α → Bool × Linear_LU_decomposition α)
    (m : Vector_Field α) (x : List (Inequality α)) :
    (m.withInequality x).get_method_parameters =
        m.get_method_parameters.withInequality x ∧
      (m.withInequality x).get_method_parameters.constraints.inequality = x ∧
      (m.withInequality x).get_method_parameters.intern_params.n_inequality = 0 ∧
      (m.withInequality x).get_method_parameters.intern_params.problem_type =
        ProblemType.Linear ∧
      (m.withInequality x).get_method_parameters.setup_system_solver solve =
        (m.get_method_parameters.setup_system_solver solve).map
          (fun r => r.withInequality x) := by
  have h1 : (m.withInequality x).get_method_parameters =
      m.get_method_parameters.withInequality x := rfl
  refine ⟨h1, rfl, rfl, rfl, ?_⟩
  rw [h1]
  exact setup_system_solver_inequality solve m.get_method_parameters x

/-- C12: evaluation reads the position of the point and writes its result.  A call of
`eval_scalar_interpolant_at_point` that returns has changed only the scalar field
of `p`: position and vector field are as before, and the scalar field holds the
`elemsum` of the finished loop, written once.  A call of
`eval_vector_interpolant_at_point` that returns has changed only the vector field
of `p`, which holds the three sums of the finished loop.  For a kernel that
depends on positions only, two points at the same position get the same scalar
and the same vector, whatever their result fields held. -/
theorem C12_eval_point_frame {α : Type} [Zero α] [Add α] [Mul α] (m : Vector_Field α)
    (p : Point α) :
    (∀ p1 m1, m.eval_scalar_interpolant_at_point p = some (p1, m1) →
      p1.x = p.x ∧ p1.y = p.y ∧ p1.z = p.z ∧ p1.vector_field = p.vector_field ∧
      ∃ K s, m.kernel = some K ∧
        forLoop m.intern_params.n_planar (m.eval_scalar_body p) (K.clone, 0) = some s ∧
        p1 = p.set_scalar_field s.2) ∧
    (∀ p1 m1, m.eval_vector_interpolant_at_point p = some (p1, m1) →
      p1.x = p.x ∧ p1.y = p.y ∧ p1.z = p.z ∧ p1.scalar_field = p.scalar_field ∧
      ∃ K s, m.kernel = some K ∧
        forLoop m.intern_params.n_planar (m.eval_vector_body p) (K.clone, 0, 0, 0) = some s ∧
        p1 = p.set_vector_field s.2.1 s.2.2.1 s.2.2.2) ∧
    (∀ K q, m.kernel = some K → K.dependsOnPositionsOnly → p.samePosition q →
      (m.eval_scalar_interpolant_at_point p).map (fun r => r.1.scalar_field) =
        (m.eval_scalar_interpolant_at_point q).map (fun r => r.1.scalar_field) ∧
      (m.eval_vector_interpolant_at_point p).map (fun r => r.1.vector_field) =
        (m.eval_vector_interpolant_at_point q).map (fun r => r.1.vector_field)) := by
  refine ⟨?_, ?_, ?_⟩
  · intro p1 m1 h
    obtain ⟨-, K, s, hK, hs, hp1⟩ := eval_scalar_returns m m1 p p1 h
    subst hp1
    exact ⟨rfl, rfl, rfl, rfl, K, s, hK, hs, rfl⟩
  · intro p1 m1 h
    obtain ⟨-, K, s, hK, hs, hp1⟩ := eval_vector_returns m m1 p p1 h
    subst hp1
    exact ⟨rfl, rfl, rfl, rfl, K, s, hK, hs, rfl⟩
  · intro K q hK hpos hpq
    exact ⟨eval_scalar_position m K hK hpos p q hpq, eval_vector_position m K hK hpos p q hpq⟩

/-- C12, the scenario: on a point at `(1, 0, 0)` that already carries the scalar `5`
and the vector `(7, 8, 9)`, the scalar evaluation writes `0` and keeps the vector,
and the vector evaluation writes `(0, 1, 0)` and keeps the scalar. -/
theorem C12_eval_point_frame_scenario :
    (scenarioSolved.eval_scalar_interpolant_at_point
        { x := 1, y := 0, z := 0, scalar_field := some 5, vector_field := some (7, 8, 9) }).map
        (fun r => r.1) =
      some { x := 1, y := 0, z := 0, scalar_field := some 0, vector_field := some (7, 8, 9) } ∧
    (scenarioSolved.eval_vector_interpolant_at_point
        { x := 1, y := 0, z := 0, scalar_field := some 5, vector_field := some (7, 8, 9) }).map
        (fun r => r.1) =
      some { x := 1, y := 0, z := 0, scalar_field := some 5, vector_field := some (0, 1, 0) } := by
  decide

/-- C13: both evaluation routines leave the object as it was.  After a call of
`eval_scalar_interpolant_at_point` or `eval_vector_interpolant_at_point` that
returns, the object is the one before the call: the solver and its weights, the
store, the parameters and the kernel with its current pair are unchanged (the
pair is set on the clone only).  So the same call on the same point returns the
same result again, and, for a kernel that depends on positions only, the call on
any point at the same position, the evaluated point itself included, writes the
same scalar and the same vector. -/
theorem C13_eval_object_frame {α : Type} [Zero α] [Add α] [Mul α] (m : Vector_Field α)
    (p : Point α) :
    (∀ p1 m1, m.eval_scalar_interpolant_at_point p = some (p1, m1) →
      m1 = m ∧ m1.solver = m.solver ∧ m1.constraints = m.constraints ∧
      m1.intern_params = m.intern_params ∧ m1.kernel = m.kernel ∧
      m1.eval_scalar_interpolant_at_point p = some (p1, m1) ∧
      (∀ K q, m.kernel = some K → K.dependsOnPositionsOnly → q.samePosition p →
        (m1.eval_scalar_interpolant_at_point q).map (fun r => r.1.scalar_field) =
          some p1.scalar_field)) ∧
    (∀ p1 m1, m.eval_vector_interpolant_at_point p = some (p1, m1) →
      m1 = m ∧ m1.solver = m.solver ∧ m1.constraints = m.constraints ∧
      m1.intern_params = m.intern_params ∧ m1.kernel = m.kernel ∧
      m1.eval_vector_interpolant_at_point p = some (p1, m1) ∧
      (∀ K q, m.kernel = some K → K.dependsOnPositionsOnly → q.samePosition p →
        (m1.eval_vector_interpolant_at_point q).map (fun r => r.1.vector_field) =
          some p1.vector_field)) := by
  refine ⟨?_, ?_⟩
  · intro p1 m1 h
    obtain ⟨hm1, -⟩ := eval_scalar_returns m m1 p p1 h
    subst hm1
    refine ⟨rfl, rfl, rfl, rfl, rfl, h, ?_⟩
    intro K q hK hpos hqp
    rw [eval_scalar_position m1 K hK hpos q p hqp, h]
    rfl
  · intro p1 m1 h
    obtain ⟨hm1, -⟩ := eval_vector_returns m m1 p p1 h
    subst hm1
    refine ⟨rfl, rfl, rfl, rfl, rfl, h, ?_⟩
    intro K q hK hpos hqp
    rw [eval_vector_position m1 K hK hpos q p hqp, h]
    rfl

/-- C13, the scenario: the vector evaluation at `(1, 0, 0)` returns the solved method
unchanged, and the evaluation of the evaluated point writes `(0, 1, 0)` again. -/
theorem C13_eval_object_frame_scenario :
    scenarioSolved.eval_vector_interpolant_at_point (scenarioPoint 1 0 0) =
        some ((scenarioPoint 1 0 0).set_vector_field 0 1 0, scenarioSolved) ∧
      (scenarioSolved.eval_vector_interpolant_at_point
        ((scenarioPoint 1 0 0).set_vector_field 0 1 0)).map (fun r => r.1.vector_field) =
        some (some (0, 1, 0)) := by
  have h : scenarioSolved.eval_vector_interpolant_at_point (scenarioPoint 1 0 0) =
      some ((scenarioPoint 1 0 0).set_vector_field 0 1 0, scenarioSolved) := by rfl
  exact ⟨h, ((C13_eval_object_frame scenarioSolved (scenarioPoint 1 0 0)).2 _ _ h).2.2.2.2.2.2
    _ _ rfl (scenarioKernel_positions _ _) ⟨rfl, rfl, rfl⟩⟩

/-- C14: assembly index safety.  With the cached count `n_p = n_planar` and the
dimension `n = 3 * n_p`: (1) in an `n` by `n` matrix no run of the body of
`get_interpolation_matrix` for blocks `j, k < n_p` faults on a cell, a fault comes
from a null kernel or a constraint index only, and with the kernel set and
`n_p` within the store the call returns; (2) `get_equality_values`, which loops
over the planar constraints of the store, stays inside a vector of `n` cells
exactly when the store holds at most `n_p` planar constraints; (3) after
`get_method_parameters` both calls return. -/
theorem C14_assembly_index_safety {α : Type} (m : Vector_Field α) :
    (∀ j k (m1 : Vector_Field α) (A : MatrixXd α),
      j < m.intern_params.n_planar → k < m.intern_params.n_planar →
      A.rows = 3 * m.intern_params.n_planar → A.cols = 3 * m.intern_params.n_planar →
      Vector_Field.get_interpolation_matrix_body j k (m1, A) = none →
      m1.kernel = none ∨ m1.constraints.planar[j]? = none ∨
        m1.constraints.planar[k]? = none) ∧
    (m.kernel.isSome → m.intern_params.n_planar ≤ m.constraints.planar.length →
      (m.get_interpolation_matrix
        (MatrixXd.alloc (3 * m.intern_params.n_planar)
          (3 * m.intern_params.n_planar))).isSome) ∧
    ((m.get_equality_values (VectorXd.alloc (3 * m.intern_params.n_planar))).isSome ↔
      m.constraints.planar.length ≤ m.intern_params.n_planar) ∧
    (m.get_method_parameters.get_equality_values
      (VectorXd.alloc (3 * m.get_method_parameters.intern_params.n_planar))).isSome ∧
    (m.kernel.isSome →
      (m.get_method_parameters.get_interpolation_matrix
        (MatrixXd.alloc (3 * m.get_method_parameters.intern_params.n_planar)
          (3 * m.get_method_parameters.intern_params.n_planar))).isSome) := by
  refine ⟨?_, ?_, get_equality_values_isSome_iff m _, ?_, ?_⟩
  · intro j k m1 A hj hk hrows hcols hnone
    by_contra hcon
    simp only [not_or] at hcon
    obtain ⟨h1, h2, h3⟩ := hcon
    obtain ⟨K, hK⟩ := Option.ne_none_iff_exists'.mp h1
    obtain ⟨pj, hpj⟩ := Option.ne_none_iff_exists'.mp h2
    obtain ⟨pk, hpk⟩ := Option.ne_none_iff_exists'.mp h3
    obtain ⟨A1, hbody, -⟩ :=
      get_interpolation_matrix_body_spec K m1 A j k K.p1 K.p2 pj pk hK hpj hpk
        (by omega) (by omega)
    rw [hbody] at hnone
    cases hnone
  · intro hker hnp
    obtain ⟨K, hK⟩ := Option.isSome_iff_exists.mp hker
    obtain ⟨a, b, A1, hrun, -⟩ :=
      get_interpolation_matrix_spec K m
        (MatrixXd.alloc (3 * m.intern_params.n_planar) (3 * m.intern_params.n_planar))
        hK hnp (le_refl _) (le_refl _)
    rw [hrun]
    rfl
  · exact (get_equality_values_isSome_iff m.get_method_parameters _).mpr (le_refl _)
  · intro hker
    obtain ⟨K, hK⟩ := Option.isSome_iff_exists.mp hker
    have hK1 : m.get_method_parameters.kernel = some K := hK
    obtain ⟨a, b, A1, hrun, -⟩ :=
      get_interpolation_matrix_spec K m.get_method_parameters
        (MatrixXd.alloc (3 * m.get_method_parameters.intern_params.n_planar)
          (3 * m.get_method_parameters.intern_params.n_planar))
        hK1 (le_refl _) (le_refl _) (le_refl _)
    rw [hrun]
    rfl

/-- C14, the scenario: before `get_method_parameters` the cached count is 0 while the
store holds two planar constraints, and `get_equality_values` writes outside the
vector of 0 cells; after `get_method_parameters` both assemblies return. -/
theorem C14_assembly_index_safety_scenario :
    scenarioField.get_equality_values (VectorXd.alloc 0) = none ∧
      (scenarioField.get_method_parameters.get_equality_values
        (VectorXd.alloc 6)).isSome = true ∧
      (scenarioField.get_method_parameters.get_interpolation_matrix
        (MatrixXd.alloc 6 6)).isSome = true := by
  refine ⟨by rfl, by decide, by decide⟩

/-- C15: evaluation index safety.  When the kernel and the solver are set, the weight
vector has `3 * n_planar` entries and `n_planar` is the number of planar
constraints of the store, then in both evaluation routines every read of
iteration `k < n_planar` (the constraint `k` and the weights `3 * k`, `3 * k + 1`,
`3 * k + 2`) is in range and no iteration faults; every index of the weight
vector is `3 * k + s` for an iteration `k < n_planar` and an offset `s < 3`; and
both routines return, the written results being sums over all indices `i` of the
weight vector of the weight `i` times a derivative, so that no weight is left
out. -/
theorem C15_evaluation_index_safety {α : Type} [AddCommMonoid α] [Mul α]
    (m : Vector_Field α) (K : Kernel α) (S : Linear_LU_decomposition α) (p : Point α)
    (hker : m.kernel = some K) (hsol : m.solver = some S)
    (hlen : S.weights.length = 3 * m.intern_params.n_planar)
    (hnp : m.intern_params.n_planar = m.constraints.planar.length) :
    (∀ k, k < m.intern_params.n_planar →
      (m.constraints.planar[k]?).isSome ∧ (S.weights[3 * k]?).isSome ∧
        (S.weights[3 * k + 1]?).isSome ∧ (S.weights[3 * k + 2]?).isSome) ∧
    (∀ k s, k < m.intern_params.n_planar → (m.eval_scalar_body p k s).isSome) ∧
    (∀ k s, k < m.intern_params.n_planar → (m.eval_vector_body p k s).isSome) ∧
    (∀ i, i < S.weights.length →
      i / 3 < m.intern_params.n_planar ∧ i % 3 < 3 ∧ 3 * (i / 3) + i % 3 = i) ∧
    ∃ (w : Nat → α) (planar : Nat → Planar α),
      (∀ i, i < S.weights.length → S.weights[i]? = some (w i)) ∧
      (∀ k, k < m.intern_params.n_planar → m.constraints.planar[k]? = some (planar k)) ∧
      m.eval_scalar_interpolant_at_point p =
        some (p.set_scalar_field
          (∑ i in Finset.range S.weights.length,
            w i * K.first_derivative (Axis.ofOffset (i % 3)) p (planar (i / 3)).toPoint), m) ∧
      m.eval_vector_interpolant_at_point p =
        some (p.set_vector_field
          (∑ i in Finset.range S.weights.length,
            w i * K.second_derivative
              (SecondDerivatives.ofAxes Axis.x (Axis.ofOffset (i % 3))) p
              (planar (i / 3)).toPoint)
          (∑ i in Finset.range S.weights.length,
            w i * K.second_derivative
              (SecondDerivatives.ofAxes Axis.y (Axis.ofOffset (i % 3))) p
              (planar (i / 3)).toPoint)
          (∑ i in Finset.range S.weights.length,
            w i * K.second_derivative
              (SecondDerivatives.ofAxes Axis.z (Axis.ofOffset (i % 3))) p
              (planar (i / 3)).toPoint), m) := by
  have hreads : ∀ k, k < m.intern_params.n_planar →
      (m.constraints.planar[k]?).isSome ∧ (S.weights[3 * k]?).isSome ∧
        (S.weights[3 * k + 1]?).isSome ∧ (S.weights[3 * k + 2]?).isSome := by
    intro k hk
    have h0 : k < m.constraints.planar.length := by omega
    have h1 : 3 * k < S.weights.length := by omega
    have h2 : 3 * k + 1 < S.weights.length := by omega
    have h3 : 3 * k + 2 < S.weights.length := by omega
    simp [List.getElem?_eq_getElem h0, List.getElem?_eq_getElem h1,
      List.getElem?_eq_getElem h2, List.getElem?_eq_getElem h3]
  have hwf : ∀ i, i < S.weights.length → S.weights[i]? = some (S.weights.getD i 0) := by
    intro i hi
    simp [List.getD, List.getElem?_eq_getElem hi]
  have hpf : ∀ k, k < m.intern_params.n_planar →
      m.constraints.planar[k]? =
        some (m.constraints.planar.getD k { toPoint := p, nx := 0, ny := 0, nz := 0 }) := by
    intro k hk
    have h0 : k < m.constraints.planar.length := by omega
    simp [List.getD, List.getElem?_eq_getElem h0]
  refine ⟨hreads,
    fun k s hk => (eval_scalar_body_isSome_iff m S hsol p k s).mpr (hreads k hk),
    fun k s hk => (eval_vector_body_isSome_iff m S hsol p k s).mpr (hreads k hk),
    fun i hi => ⟨by omega, by omega, by omega⟩,
    fun i => S.weights.getD i 0,
    fun k => m.constraints.planar.getD k { toPoint := p, nx := 0, ny := 0, nz := 0 },
    hwf, hpf, ?_, ?_⟩
  · obtain ⟨a1, b1, hrun⟩ :=
      eval_scalar_loop m K S p hsol (fun i => S.weights.getD i 0)
        (fun k => m.constraints.planar.getD k { toPoint := p, nx := 0, ny := 0, nz := 0 })
        m.intern_params.n_planar (fun i hi => hwf i (by omega)) hpf K.p1 K.p2 0
    have hK : K.clone = K.set_points K.p1 K.p2 := rfl
    simp only [Vector_Field.eval_scalar_interpolant_at_point, hker, Option.some_bind,
      Option.bind_eq_bind, hK, hrun, pure, zero_add]
    rw [hlen, sum_range_three_mul_weights (fun i => S.weights.getD i 0)
      (fun s k => K.first_derivative (Axis.ofOffset s) p
        (m.constraints.planar.getD k { toPoint := p, nx := 0, ny := 0, nz := 0 }).toPoint)]
  · obtain ⟨a1, b1, hrun⟩ :=
      eval_vector_loop m K S p hsol (fun i => S.weights.getD i 0)
        (fun k => m.constraints.planar.getD k { toPoint := p, nx := 0, ny := 0, nz := 0 })
        m.intern_params.n_planar (fun i hi => hwf i (by omega)) hpf K.p1 K.p2 0 0 0
    have hK : K.clone = K.set_points K.p1 K.p2 := rfl
    simp only [Vector_Field.eval_vector_interpolant_at_point, hker, Option.some_bind,
      Option.bind_eq_bind, hK, hrun, pure, zero_add]
    rw [hlen,
      sum_range_three_mul_weights (fun i => S.weights.getD i 0)
        (fun s k => K.second_derivative
          (SecondDerivatives.ofAxes Axis.x (Axis.ofOffset s)) p
          (m.constraints.planar.getD k { toPoint := p, nx := 0, ny := 0, nz := 0 }).toPoint),
      sum_range_three_mul_weights (fun i => S.weights.getD i 0)
        (fun s k => K.second_derivative
          (SecondDerivatives.ofAxes Axis.y (Axis.ofOffset s)) p
          (m.constraints.planar.getD k { toPoint := p, nx := 0, ny := 0, nz := 0 }).toPoint),
      sum_range_three_mul_weights (fun i => S.weights.getD i 0)
        (fun s k => K.second_derivative
          (SecondDerivatives.ofAxes Axis.z (Axis.ofOffset s)) p
          (m.constraints.planar.getD k { toPoint := p, nx := 0, ny := 0, nz := 0 }).toPoint)]

/-- C15, the scenario: the solved method holds six weights for two planar
constraints; the reads of the last iteration, constraint 1 and weights 3, 4, 5,
are in range. -/
theorem C15_evaluation_index_safety_scenario :
    ∃ S, scenarioSolved.solver = some S ∧ S.weights.length = 6 ∧
      ((scenarioSolved.constraints.planar[1]?).isSome ∧ (S.weights[3 * 1]?).isSome ∧
        (S.weights[3 * 1 + 1]?).isSome ∧ (S.weights[3 * 1 + 2]?).isSome) :=
  ⟨_, rfl, by decide,
    (C15_evaluation_index_safety scenarioSolved _ _ (scenarioPoint 0 1 0) rfl rfl
      (by decide) (by decide)).1 1 (by decide)⟩

/-- C16: when two planar constraints `j` and `k` of the store (distinct ones in
particular) have the same position and the kernel depends on positions only,
`get_interpolation_matrix` still returns `true`, and in the assembled matrix the
rows `3 * j + a` and `3 * k + a` are assigned and identical for `a < 3`; so for
every vector `w` the product `A * w` has the same entry in both rows, and for
`j ≠ k` the matrix is singular. -/
theorem C16_coincident_rows {α : Type} [Zero α] [Add α] [Mul α] (m : Vector_Field α)
    (K : Kernel α) (j k : Nat) (cj ck : Planar α)
    (hker : m.kernel = some K)
    (hnp : m.intern_params.n_planar = m.constraints.planar.length)
    (hpos : K.dependsOnPositionsOnly)
    (hj : m.constraints.planar[j]? = some cj) (hk : m.constraints.planar[k]? = some ck)
    (hsame : cj.toPoint.samePosition ck.toPoint) :
    ∃ A m1,
      m.get_interpolation_matrix
          (MatrixXd.alloc (3 * m.constraints.planar.length)
            (3 * m.constraints.planar.length)) = some (true, A, m1) ∧
      (∀ a c, a < 3 → A.coeff (3 * j + a) c = A.coeff (3 * k + a) c) ∧
      (∀ a c, a < 3 → c < 3 * m.constraints.planar.length →
        (A.coeff (3 * j + a) c).isSome) ∧
      (∀ a w, a < 3 → A.mulVec_row w (3 * j + a) = A.mulVec_row w (3 * k + a)) := by
  have hjlt : j < m.constraints.planar.length := by
    by_contra hge
    rw [List.getElem?_eq_none (by omega)] at hj
    cases hj
  have hklt : k < m.constraints.planar.length := by
    by_contra hge
    rw [List.getElem?_eq_none (by omega)] at hk
    cases hk
  obtain ⟨a0, b0, A1, hrun, -, -, hval⟩ :=
    get_interpolation_matrix_spec K m
      (MatrixXd.alloc (3 * m.constraints.planar.length) (3 * m.constraints.planar.length))
      hker (by omega) (by simp [MatrixXd.alloc, hnp]) (by simp [MatrixXd.alloc, hnp])
  have hrow : ∀ a c, a < 3 → A1.coeff (3 * j + a) c = A1.coeff (3 * k + a) c := by
    intro a c ha
    have e1 : (3 * j + a) / 3 = j := by omega
    have e2 : (3 * j + a) % 3 = a := by omega
    have e3 : (3 * k + a) / 3 = k := by omega
    have e4 : (3 * k + a) % 3 = a := by omega
    rw [hval, hval, hnp, e1, e3]
    by_cases hc : c / 3 < m.constraints.planar.length
    · rw [if_pos ⟨hjlt, hc⟩, if_pos ⟨hklt, hc⟩]
      simp only [planar_planar_entry, e1, e2, e3, e4, hj, hk, List.getElem?_eq_getElem hc]
      rw [hpos.1 _ cj.toPoint ck.toPoint _ _ hsame ⟨rfl, rfl, rfl⟩]
    · rw [if_neg (fun h => hc h.2), if_neg (fun h => hc h.2)]
      rfl
  refine ⟨A1, _, hrun, hrow, ?_, ?_⟩
  · intro a c ha hc
    have e1 : (3 * j + a) / 3 = j := by omega
    have hc3 : c / 3 < m.constraints.planar.length := by omega
    rw [hval, hnp, e1, if_pos ⟨hjlt, hc3⟩]
    simp [planar_planar_entry, e1, hj, List.getElem?_eq_getElem hc3]
  · intro a w ha
    simp only [MatrixXd.mulVec_row]
    simp only [hrow a _ ha]

/-- C16, the scenario: with two constraints at `(0,0,0)` and a third at `(1,0,0)`, the
9 by 9 matrix is assembled, and its rows 0 and 3 agree, also in column 6 where
they are not zero. -/
theorem C16_coincident_rows_scenario :
    ∃ A m1,
      scenarioCoincident.get_interpolation_matrix (MatrixXd.alloc 9 9) =
        some (true, A, m1) ∧
      A.coeff 0 6 = A.coeff 3 6 ∧ A.coeff 0 6 = some (-1) := by
  obtain ⟨A, m1, hrun, hrow, -, -⟩ :=
    C16_coincident_rows scenarioCoincident _ 0 1 _ _ rfl rfl (scenarioKernel_positions _ _)
      rfl rfl ⟨rfl, rfl, rfl⟩
  refine ⟨A, m1, hrun, hrow 0 6 (by decide), ?_⟩
  have hrun2 : scenarioCoincident.get_interpolation_matrix (MatrixXd.alloc 9 9) =
      some (true, A, m1) := hrun
  have hval : (scenarioCoincident.get_interpolation_matrix (MatrixXd.alloc 9 9)).bind
      (fun r => r.2.1.coeff 0 6) = some (-1) := by decide
  rw [hrun2] at hval
  exact hval

/-- C17: `get_interpolation_matrix` returns `true` whenever it returns, and it does
return when the kernel is set, the cached planar count is within the store and
the matrix has at least `3 * n_planar` rows and columns.  So
`setup_system_solver` never throws `error_computing_interpolation_matrix`: the
only exception it throws is `linear_solver_failure`, and after
`get_method_parameters`, with the kernel set, it either returns or throws
`linear_solver_failure`. -/
theorem C17_assembly_error_unreachable {α : Type}
    (solve : Linear_LU_decomposition α → Bool × Linear_LU_decomposition α)
    (m : Vector_Field α) :
    (∀ A flag A1 m1, m.get_interpolation_matrix A = some (flag, A1, m1) → flag = true) ∧
    (∀ A, m.kernel.isSome → m.intern_params.n_planar ≤ m.constraints.planar.length →
      3 * m.intern_params.n_planar ≤ A.rows → 3 * m.intern_params.n_planar ≤ A.cols →
      ∃ A1 m1, m.get_interpolation_matrix A = some (true, A1, m1)) ∧
    (∀ e m1, m.setup_system_solver solve = Outcome.thrown e m1 →
      e = GRBF_Exceptions.linear_solver_failure) ∧
    (m.kernel.isSome →
      (∃ m1, m.get_method_parameters.setup_system_solver solve = Outcome.ok m1) ∨
      (∃ m1, m.get_method_parameters.setup_system_solver solve =
        Outcome.thrown GRBF_Exceptions.linear_solver_failure m1)) := by
  refine ⟨?_, ?_, ?_, ?_⟩
  · intro A flag A1 m1 h
    exact (get_interpolation_matrix_frame m m1 A A1 flag h).1
  · intro A hker hnp hr hc
    obtain ⟨K, hK⟩ := Option.isSome_iff_exists.mp hker
    obtain ⟨a, b, A1, hrun, -⟩ := get_interpolation_matrix_spec K m A hK hnp hr hc
    exact ⟨A1, _, hrun⟩
  · intro e m1 h
    cases hb : m.get_equality_values
        (VectorXd.alloc (m.intern_params.n_equality + m.intern_params.n_poly_terms)) with
    | none => simp [Vector_Field.setup_system_solver, hb] at h
    | some rb =>
      obtain ⟨flag, b, m2⟩ := rb
      cases hA : m2.get_interpolation_matrix
          (MatrixXd.alloc (m.intern_params.n_equality + m.intern_params.n_poly_terms)
            (m.intern_params.n_equality + m.intern_params.n_poly_terms)) with
      | none => simp [Vector_Field.setup_system_solver, hb, hA] at h
      | some rA =>
        obtain ⟨fl, A, m3⟩ := rA
        obtain ⟨hfl, -⟩ := get_interpolation_matrix_frame m2 m3 _ A fl hA
        subst hfl
        cases hs : solve (Linear_LU_decomposition.new A b) with
        | mk ok llu =>
          cases ok
          · simp only [Vector_Field.setup_system_solver, hb, hA, hs,
              Outcome.thrown.injEq] at h
            exact h.1.symm
          · simp [Vector_Field.setup_system_solver, hb, hA, hs] at h
  · intro hker
    obtain ⟨K, hK⟩ := Option.isSome_iff_exists.mp hker
    have hK1 : m.get_method_parameters.kernel = some K := hK
    have hdim : m.get_method_parameters.intern_params.n_equality +
        m.get_method_parameters.intern_params.n_poly_terms =
          3 * m.get_method_parameters.constraints.planar.length := by
      show 0 + 3 * m.constraints.planar.length + 0 + 0 = 3 * m.constraints.planar.length
      omega
    have hnp : m.get_method_parameters.intern_params.n_planar =
        m.get_method_parameters.constraints.planar.length := rfl
    obtain ⟨v1, hrunb, -⟩ :=
      get_equality_values_loop m.get_method_parameters
        (VectorXd.alloc (m.get_method_parameters.intern_params.n_equality +
          m.get_method_parameters.intern_params.n_poly_terms))
        m.get_method_parameters.constraints.planar.length (le_refl _)
        (by rw [hdim]; exact le_refl _)
    obtain ⟨a, b, A1, hrun, -⟩ :=
      get_interpolation_matrix_spec K m.get_method_parameters
        (MatrixXd.alloc (m.get_method_parameters.intern_params.n_equality +
          m.get_method_parameters.intern_params.n_poly_terms)
          (m.get_method_parameters.intern_params.n_equality +
          m.get_method_parameters.intern_params.n_poly_terms))
        hK1 (by rw [hnp]) (by rw [hdim, hnp]; exact le_refl _)
        (by rw [hdim, hnp]; exact le_refl _)
    have hb : m.get_method_parameters.get_equality_values
        (VectorXd.alloc (m.get_method_parameters.intern_params.n_equality +
          m.get_method_parameters.intern_params.n_poly_terms)) =
        some (true, v1, m.get_method_parameters) := by
      simp only [Vector_Field.get_equality_values, hrunb, Option.some_bind,
        Option.bind_eq_bind, pure]
    cases hs : solve (Linear_LU_decomposition.new A1 v1) with
    | mk ok llu =>
      cases ok
      · right
        simp only [Vector_Field.setup_system_solver, hb, hrun, hs]
        exact ⟨_, rfl⟩
      · left
        simp only [Vector_Field.setup_system_solver, hb, hrun, hs]
        exact ⟨_, rfl⟩

/-- C17, the scenario: on the reduced store the only exception is the solver
failure, and on the two-constraint store the call returns. -/
theorem C17_assembly_error_unreachable_scenario :
    (scenarioReduced.setup_system_solver scenarioSolve).exception? =
        some GRBF_Exceptions.linear_solver_failure ∧
      (scenarioField.get_method_parameters.setup_system_solver scenarioSolve).exception? =
        none ∧
      (scenarioField.get_method_parameters.get_interpolation_matrix
        (MatrixXd.alloc 6 6)).map (fun r => r.1) = some true := by
  decide

/-- C18: empty-store edge case.  When the store holds no planar constraint, whatever
interface, tangent and inequality constraints it holds, after
`get_method_parameters` the dimension `n_equality + n_poly_terms` is 0,
`get_equality_values` and `get_interpolation_matrix` return the vector and the
matrix they were given and leave the object as it is, and, the kernel being set,
for every point `p` and whatever the solver member holds
`eval_scalar_interpolant_at_point` writes `0` and
`eval_vector_interpolant_at_point` writes `(0, 0, 0)`. -/
theorem C18_empty_store {α : Type} [Zero α] [Add α] [Mul α] (m : Vector_Field α)
    (K : Kernel α) (hplanar : m.constraints.planar = []) (hker : m.kernel = some K) :
    m.get_method_parameters.intern_params.n_planar = 0 ∧
      m.get_method_parameters.intern_params.n_equality +
        m.get_method_parameters.intern_params.n_poly_terms = 0 ∧
      (∀ v, m.get_method_parameters.get_equality_values v =
        some (true, v, m.get_method_parameters)) ∧
      (∀ A, m.get_method_parameters.get_interpolation_matrix A =
        some (true, A, m.get_method_parameters)) ∧
      (∀ p, m.get_method_parameters.eval_scalar_interpolant_at_point p =
        some (p.set_scalar_field 0, m.get_method_parameters)) ∧
      (∀ p, m.get_method_parameters.eval_vector_interpolant_at_point p =
        some (p.set_vector_field 0 0 0, m.get_method_parameters)) := by
  have hnp : m.get_method_parameters.intern_params.n_planar = 0 := by
    show m.constraints.planar.length = 0
    rw [hplanar]
    rfl
  have hlen : m.get_method_parameters.constraints.planar.length = 0 := hnp
  have hK : m.get_method_parameters.kernel = some K := hker
  refine ⟨hnp, ?_, ?_, ?_, ?_, ?_⟩
  · show 0 + 3 * m.constraints.planar.length + 0 + 0 = 0
    rw [hplanar]
    rfl
  · intro v
    simp only [Vector_Field.get_equality_values, hlen, forLoop, Option.some_bind,
      Option.bind_eq_bind, pure]
  · intro A
    simp only [Vector_Field.get_interpolation_matrix, hnp, forLoop, Option.some_bind,
      Option.bind_eq_bind, pure]
  · intro p
    simp only [Vector_Field.eval_scalar_interpolant_at_point, hnp, hK, forLoop,
      Option.some_bind, Option.bind_eq_bind, pure]
  · intro p
    simp only [Vector_Field.eval_vector_interpolant_at_point, hnp, hK, forLoop,
      Option.some_bind, Option.bind_eq_bind, pure]

/-- C18, the scenario: a store with an interface, a tangent and an inequality
constraint and no planar one; the evaluations at `(1, 2, 3)` write `0` and
`(0, 0, 0)`. -/
theorem C18_empty_store_scenario :
    scenarioNoPlanar.get_method_parameters.eval_scalar_interpolant_at_point
        (scenarioPoint 1 2 3) =
      some ((scenarioPoint 1 2 3).set_scalar_field 0, scenarioNoPlanar.get_method_parameters) ∧
    scenarioNoPlanar.get_method_parameters.eval_vector_interpolant_at_point
        (scenarioPoint 1 2 3) =
      some ((scenarioPoint 1 2 3).set_vector_field 0 0 0,
        scenarioNoPlanar.get_method_parameters) :=
  ⟨(C18_empty_store scenarioNoPlanar scenarioKernel rfl rfl).2.2.2.2.1 (scenarioPoint 1 2 3),
    (C18_empty_store scenarioNoPlanar scenarioKernel rfl rfl).2.2.2.2.2 (scenarioPoint 1 2 3)⟩

end Surfe
